import Mathlib

/-!
Verification development for the lid-driven-cavity solver
`src/DrivenCavity.template-to-students.UPDATED.cpp`.

The program is shallowly embedded over exact rationals: C `double` values
become `ℚ`, the libm calls `sqrt`, `sin`, `cos` and the constant `acos(-1)`
become explicit function/value parameters (`rsqrt`, `rsin`, `rcos`, `rpiv`)
of every definition that uses them, and every loop becomes a `List.foldl`
over the exact index sequence the C loops traverse.  Grid fields
(`Array3`/`Array2`) become total functions from indices to `ℚ`; an
assignment `u(i,j,k) = v` becomes a pointwise functional update.
Uninitialized C locals (`uvel2`, `lambda_x`, ... in
`Compute_Artificial_Viscosity`) are modelled as explicit input parameters
holding an arbitrary unspecified value.
-/

/-- A primitive-variable field, `Array3 u(imax, jmax, neq)` from the source:
cell `(i, j)` holds `neq = 3` scalars (`k = 0` pressure, `k = 1` x-velocity,
`k = 2` y-velocity). Out-of-range indices model reads outside the logical
domain. -/
def Array3 : Type := ℕ → ℕ → ℕ → ℚ

/-- A per-cell scalar field, `Array2` from the source (`viscx`, `viscy`, `dt`). -/
def Array2 : Type := ℕ → ℕ → ℚ

/-- Assignment `u(i0,j0,k0) = v` on an `Array3`. -/
def upd3 (u : Array3) (i0 j0 k0 : ℕ) (v : ℚ) : Array3 :=
  fun i j k => if i = i0 ∧ j = j0 ∧ k = k0 then v else u i j k

/-- Assignment `w(i0,j0) = v` on an `Array2`. -/
def upd2 (w : Array2) (i0 j0 : ℕ) (v : ℚ) : Array2 :=
  fun i j => if i = i0 ∧ j = j0 then v else w i j

/-! ### Loop index sequences

`for (x = lo; x < lo + n; x++)` visits `rangeFrom lo n`; a nested
`for i { for j { ... } }` visits `ijList` in the same order. -/

/-- The index sequence `lo, lo+1, ..., lo+n-1` of an ascending C `for` loop. -/
def rangeFrom (lo n : ℕ) : List ℕ := (List.range n).map (fun t => lo + t)

/-- The cell sequence of a nested loop, outer `i` ascending then inner `j`
ascending. -/
def ijList (i0 ni j0 nj : ℕ) : List (ℕ × ℕ) :=
  (rangeFrom i0 ni).flatMap (fun i => (rangeFrom j0 nj).map (fun j => (i, j)))

/-! ### Program constants (source lines 14-15, 43-67) and derived inputs
(`set_derived_inputs`, lines 313-323). -/

def imax : ℕ := 65
def jmax : ℕ := 65
def neq : ℕ := 3

def cfl : ℚ := 0.9
def Cx : ℚ := 0.01
def Cy : ℚ := 0.01
def rkappa : ℚ := 0.1
def Re : ℚ := 100
def pinf : ℚ := 0.801333844662
def uinf : ℚ := 1
def rho : ℚ := 1
def xmin : ℚ := 0
def xmax : ℚ := 0.05
def ymin : ℚ := 0
def ymax : ℚ := 0.05

def rhoinv : ℚ := 1 / rho
def rlength : ℚ := xmax - xmin
def rmu : ℚ := rho * uinf * rlength / Re
def vel2ref : ℚ := uinf * uinf
def dx : ℚ := (xmax - xmin) / ((imax : ℚ) - 1)
def dy : ℚ := (ymax - ymin) / ((jmax : ℚ) - 1)

/-! ### MMS constants (source lines 80-92) and the exact-solution provider
`umms` (lines 669-699).  The C arrays `phi0[neq]` etc. become functions on the
equation index. -/

def phi0 : ℕ → ℚ := fun k => if k = 0 then 0.25 else if k = 1 then 0.3 else 0.2
def phix : ℕ → ℚ := fun k => if k = 0 then 0.5 else if k = 1 then 0.15 else 1/6
def phiy : ℕ → ℚ := fun k => if k = 0 then 0.4 else if k = 1 then 0.2 else 0.25
def phixy : ℕ → ℚ := fun k => if k = 0 then 1/3 else if k = 1 then 0.25 else 0.1
def apx : ℕ → ℚ := fun k => if k = 0 then 0.5 else if k = 1 then 1/3 else 7/17
def apy : ℕ → ℚ := fun k => if k = 0 then 0.2 else if k = 1 then 0.25 else 1/6
def apxy : ℕ → ℚ := fun k => if k = 0 then 2/7 else if k = 1 then 0.4 else 1/3
def fsinx : ℕ → ℚ := fun k => if k = 1 then 1 else 0
def fsiny : ℕ → ℚ := fun k => if k = 0 then 1 else 0
def fsinxy : ℕ → ℚ := fun k => if k = 2 then 0 else 1

/-- `umms(x, y, k)` (lines 669-699): the MMS exact solution.  `rsin`/`rcos`
model the libm `sin`/`cos`, `rpiv` models `rpi = acos(-1.0)`. -/
def umms (rsin rcos : ℚ → ℚ) (rpiv : ℚ) (x y : ℚ) (k : ℕ) : ℚ :=
  let argx := apx k * rpiv * x / rlength
  let argy := apy k * rpiv * y / rlength
  let argxy := apxy k * rpiv * x * y / rlength / rlength
  let termx := phix k * (fsinx k * rsin argx + (1 - fsinx k) * rcos argx)
  let termy := phiy k * (fsiny k * rsin argy + (1 - fsiny k) * rcos argy)
  let termxy := phixy k * (fsinxy k * rsin argxy + (1 - fsinxy k) * rcos argxy)
  phi0 k + termx + termy + termxy

/-! ### `bndry` (lines 482-530): physical-wall boundary conditions. -/

/-- One iteration of the side-wall loop (lines 502-514): left wall `i = 0`
(pressure extrapolation, then zero velocities), then right wall
`i = imax-1`, exactly in source statement order. -/
def bndrySide (a : Array3) (j : ℕ) : Array3 :=
  let a1 := upd3 a 0 j 0 (2 * a 1 j 0 - a 2 j 0)
  let a2 := upd3 a1 0 j 1 0
  let a3 := upd3 a2 0 j 2 0
  let a4 := upd3 a3 (imax-1) j 0 (2 * a3 (imax-2) j 0 - a3 (imax-3) j 0)
  let a5 := upd3 a4 (imax-1) j 1 0
  upd3 a5 (imax-1) j 2 0

/-- One iteration of the bottom/top-wall loop (lines 516-528): bottom wall
`j = 0`, then top wall `j = jmax-1` (lid velocity `uinf`). -/
def bndryTopBot (a : Array3) (i : ℕ) : Array3 :=
  let a1 := upd3 a i 0 0 (2 * a i 1 0 - a i 2 0)
  let a2 := upd3 a1 i 0 1 0
  let a3 := upd3 a2 i 0 2 0
  let a4 := upd3 a3 i (jmax-1) 0 (2 * a3 i (jmax-2) 0 - a3 i (jmax-3) 0)
  let a5 := upd3 a4 i (jmax-1) 1 uinf
  upd3 a5 i (jmax-1) 2 0

/-- The side-wall loop `for (j = 1; j < jmax-1; j++)`. -/
def bndrySideLoop (u : Array3) : Array3 := (rangeFrom 1 (jmax-2)).foldl bndrySide u

/-- `bndry` (lines 482-530): side-wall loop over `j = 1 .. jmax-2`, then
bottom/top-wall loop over `i = 0 .. imax-1` (the latter runs last and owns
the four corners). -/
def bndry (u : Array3) : Array3 := (List.range imax).foldl bndryTopBot (bndrySideLoop u)

/-! ### `pressure_rescaling` (lines 1268-1302). -/

/-- The offset `deltap` (lines 1282-1293): center-cell pressure minus the
reference pressure (`pinf`, or the MMS pressure at the center when
`imms = 1`).  `immsv` generalizes the compile-time constant `imms`
(`= 0` in this build). -/
def deltapOf (rsin rcos : ℚ → ℚ) (rpiv : ℚ) (immsv : ℕ) (u : Array3) : ℚ :=
  let iref := (imax - 1) / 2
  let jref := (jmax - 1) / 2
  if immsv = 1 then
    u iref jref 0 -
      umms rsin rcos rpiv ((xmax - xmin) * (iref : ℚ) / ((imax : ℚ) - 1))
        ((ymax - ymin) * (jref : ℚ) / ((jmax : ℚ) - 1)) 0
  else
    u iref jref 0 - pinf

/-- One iteration of the rescaling loop (line 1299): `u(i,j,0) -= deltap`. -/
def presBody (deltap : ℚ) (a : Array3) (c : ℕ × ℕ) : Array3 :=
  upd3 a c.1 c.2 0 (a c.1 c.2 0 - deltap)

/-- `pressure_rescaling` (lines 1268-1302): subtract the fixed `deltap`
from the pressure of every cell of the grid. -/
def pressure_rescaling (rsin rcos : ℚ → ℚ) (rpiv : ℚ) (immsv : ℕ) (u : Array3) : Array3 :=
  (ijList 0 imax 0 jmax).foldl (presBody (deltapOf rsin rcos rpiv immsv u)) u

/-! ### Sample data for instantiating theorems at concrete inputs. -/

/-- A sample concrete field. -/
def uSamp : Array3 := fun i j k => (i : ℚ) + 2 * j + 3 * k

/-- The constant-zero function, modelling an arbitrary libm stub. -/
def zq : ℚ → ℚ := fun _ => 0

/-- The constant-zero scalar field. -/
def zs2 : Array2 := fun _ _ => 0

/-- The constant-zero primitive-variable field. -/
def zf3 : Array3 := fun _ _ _ => 0

/-! ### `point_Jacobi` (lines 1201-1264). -/

/-- The value the point-Jacobi update writes into component `k` of interior
cell `(i, j)`: the update equations of lines 1244-1259, every derivative and
cell value read from `uold`. -/
def pjVal (uold : Array3) (viscx viscy dt : Array2) (s : Array3) (i j k : ℕ) : ℚ :=
  let dpdx := (uold (i+1) j 0 - uold (i-1) j 0) / (2*dx)
  let dudx := (uold (i+1) j 1 - uold (i-1) j 1) / (2*dx)
  let dvdx := (uold (i+1) j 2 - uold (i-1) j 2) / (2*dx)
  let dpdy := (uold i (j+1) 0 - uold i (j-1) 0) / (2*dy)
  let dudy := (uold i (j+1) 1 - uold i (j-1) 1) / (2*dy)
  let dvdy := (uold i (j+1) 2 - uold i (j-1) 2) / (2*dy)
  let d2udx2 := (uold (i+1) j 1 - 2*uold i j 1 + uold (i-1) j 1) / (dx*dx)
  let d2vdx2 := (uold (i+1) j 2 - 2*uold i j 2 + uold (i-1) j 2) / (dx*dx)
  let d2udy2 := (uold i (j+1) 1 - 2*uold i j 1 + uold i (j-1) 1) / (dy*dy)
  let d2vdy2 := (uold i (j+1) 2 - 2*uold i j 2 + uold i (j-1) 2) / (dy*dy)
  let uvel2 := uold i j 1 * uold i j 1 + uold i j 2 * uold i j 2
  let beta2 := max uvel2 (rkappa * vel2ref)
  if k = 0 then
    uold i j 0 - beta2 * dt i j *
      (rho * dudx + rho * dvdy - viscx i j - viscy i j - s i j 0)
  else if k = 1 then
    uold i j 1 - dt i j * rhoinv *
      (rho * uold i j 1 * dudx + rho * uold i j 2 * dudy + dpdx
        - rmu * d2udx2 - rmu * d2udy2 - s i j 1)
  else
    uold i j 2 - dt i j * rhoinv *
      (rho * uold i j 1 * dvdx + rho * uold i j 2 * dvdy + dpdy
        - rmu * d2vdx2 - rmu * d2vdy2 - s i j 2)

/-- One iteration of the point-Jacobi interior loop: the three assignments
`u(i,j,0) = ...`, `u(i,j,1) = ...`, `u(i,j,2) = ...`, all right-hand sides
read from `uold` only. -/
def pjBody (uold : Array3) (viscx viscy dt : Array2) (s : Array3)
    (a : Array3) (c : ℕ × ℕ) : Array3 :=
  let a0 := upd3 a c.1 c.2 0 (pjVal uold viscx viscy dt s c.1 c.2 0)
  let a1 := upd3 a0 c.1 c.2 1 (pjVal uold viscx viscy dt s c.1 c.2 1)
  upd3 a1 c.1 c.2 2 (pjVal uold viscx viscy dt s c.1 c.2 2)

/-- `point_Jacobi` (lines 1201-1264): the interior double loop
`i = 1 .. imax-2`, `j = 1 .. jmax-2`. -/
def point_Jacobi (u uold : Array3) (viscx viscy dt : Array2) (s : Array3) : Array3 :=
  (ijList 1 (imax-2) 1 (jmax-2)).foldl (pjBody uold viscx viscy dt s) u

/-! ### `Compute_Artificial_Viscosity` (lines 932-1068).

The C function declares locals `uvel2`, `beta2`, `lambda_x`, `lambda_y`,
`d4pdx4`, `d4pdy4`.  `uvel2` is NEVER assigned anywhere in the function, so
`beta2 = max(uvel2, rkappa*vel2ref)` reads an indeterminate value; the
entry values of all six locals are modelled by a `CavLocals` parameter.
`lambda_x`, `lambda_y` are computed with the C integer expression `(1/2)`
(integer division, value 0).  The corner and edge-strip cases reuse the
stale `lambda_x`, `lambda_y`, `beta2` left over from the interior loop. -/

/-- The local variables of `Compute_Artificial_Viscosity` (lines 944-949). -/
structure CavLocals where
  uvel2 : ℚ
  beta2 : ℚ
  lambda_x : ℚ
  lambda_y : ℚ
  d4pdx4 : ℚ
  d4pdy4 : ℚ

/-- The state threaded through `Compute_Artificial_Viscosity`: the locals
plus the two output arrays (`viscx`, `viscy`, passed by reference). -/
structure CavSt where
  locals : CavLocals
  viscx : Array2
  viscy : Array2

/-- The C integer expression `(1/2)` of lines 981-982: integer division,
value `0`, then converted to `double`. -/
def c_intHalf : ℚ := ((1 / 2 : ℤ) : ℚ)

/-- One iteration of the interior dissipation loop (lines 972-988). -/
def cavInterior (rsqrt : ℚ → ℚ) (u : Array3) (st : CavSt) (c : ℕ × ℕ) : CavSt :=
  let i := c.1
  let j := c.2
  let d4pdx4 := (u (i+2) j 0 - 4*u (i+1) j 0 + 6*u i j 0 - 4*u (i-1) j 0 + u (i-2) j 0) / (dx*dx*dx*dx)
  let d4pdy4 := (u i (j+2) 0 - 4*u i (j+1) 0 + 6*u i j 0 - 4*u i (j-1) 0 + u i (j-2) 0) / (dy*dy*dy*dy)
  let beta2 := max st.locals.uvel2 (rkappa * vel2ref)
  let lambda_x := c_intHalf * (|u i j 1| + rsqrt (u i j 1 * u i j 1 + 4*beta2))
  let lambda_y := c_intHalf * (|u i j 2| + rsqrt (u i j 2 * u i j 2 + 4*beta2))
  { locals :=
      { uvel2 := st.locals.uvel2
        beta2 := beta2
        lambda_x := lambda_x
        lambda_y := lambda_y
        d4pdx4 := d4pdx4
        d4pdy4 := d4pdy4 }
    viscx := upd2 st.viscx i j (d4pdx4 * (-|lambda_x| * Cx * (dx*dx*dx)) / beta2)
    viscy := upd2 st.viscy i j (d4pdy4 * (-|lambda_y| * Cy * (dy*dy*dy)) / beta2) }

/-- A near-boundary dissipation write `viscx(i,j) = ...; viscy(i,j) = ...`
(the four corners and the two edge-strip loops all share this shape): it
reuses the stale `lambda_x`, `lambda_y`, `beta2` currently in the locals. -/
def cavWrite (st : CavSt) (i j : ℕ) (d4pdx4 d4pdy4 : ℚ) : CavSt :=
  { locals := { st.locals with d4pdx4 := d4pdx4, d4pdy4 := d4pdy4 }
    viscx :=
      upd2 st.viscx i j
        (d4pdx4 * (-|st.locals.lambda_x| * Cx * (dx*dx*dx)) / st.locals.beta2)
    viscy :=
      upd2 st.viscy i j
        (d4pdy4 * (-|st.locals.lambda_y| * Cy * (dy*dy*dy)) / st.locals.beta2) }

/-- Bottom-left corner case (lines 994-1002), `i = 1`, `j = 1` (the one-sided
fourth differences are divided by `dx` resp. `dy`, exactly as in the source). -/
def cavBL (u : Array3) (st : CavSt) : CavSt :=
  cavWrite st 1 1
    ((u 0 1 0 - 4*u 1 1 0 + 6*u 2 1 0 - 4*u 3 1 0 + u 4 1 0) / dx)
    ((u 1 0 0 - 4*u 1 1 0 + 6*u 1 2 0 - 4*u 1 3 0 + u 1 4 0) / dy)

/-- Top-left corner case (lines 1004-1012), `i = 1`, `j = jmax-2`. -/
def cavTL (u : Array3) (st : CavSt) : CavSt :=
  cavWrite st 1 (jmax-2)
    ((u 0 (jmax-2) 0 - 4*u 1 (jmax-2) 0 + 6*u 2 (jmax-2) 0 - 4*u 3 (jmax-2) 0
      + u 4 (jmax-2) 0) / dx)
    ((u 1 (jmax-5) 0 - 4*u 1 (jmax-4) 0 + 6*u 1 (jmax-3) 0 - 4*u 1 (jmax-2) 0
      + u 1 (jmax-1) 0) / dy)

/-- Bottom-right corner case (lines 1014-1022), `i = imax-2`, `j = 1`. -/
def cavBR (u : Array3) (st : CavSt) : CavSt :=
  cavWrite st (imax-2) 1
    ((u (imax-5) 1 0 - 4*u (imax-4) 1 0 + 6*u (imax-3) 1 0 - 4*u (imax-2) 1 0
      + u (imax-1) 1 0) / dx)
    ((u (imax-2) 0 0 - 4*u (imax-2) 1 0 + 6*u (imax-2) 2 0 - 4*u (imax-2) 3 0
      + u (imax-2) 4 0) / dy)

/-- Top-right corner case (lines 1024-1033), `i = imax-2`, `j = jmax-2`. -/
def cavTR (u : Array3) (st : CavSt) : CavSt :=
  cavWrite st (imax-2) (jmax-2)
    ((u (imax-5) (jmax-2) 0 - 4*u (imax-4) (jmax-2) 0 + 6*u (imax-3) (jmax-2) 0
      - 4*u (imax-2) (jmax-2) 0 + u (imax-1) (jmax-2) 0) / dx)
    ((u (imax-2) (jmax-5) 0 - 4*u (imax-2) (jmax-4) 0 + 6*u (imax-2) (jmax-3) 0
      - 4*u (imax-2) (jmax-2) 0 + u (imax-2) (jmax-1) 0) / dy)

/-- One iteration of the left/right-wall strip loop (lines 1035-1049): the
left-wall (`i = 2`) stencils are computed and then OVERWRITTEN by the
right-wall (`i = imax-2`) stencils before the single write at `(imax-2, j)`
(the source assigns `viscx(i,j)` only after re-setting `i = imax-2`). -/
def cavLR (u : Array3) (st : CavSt) (j : ℕ) : CavSt :=
  let _d4pdx4Left := (u 1 j 0 - 4*u 2 j 0 + 6*u 3 j 0 - 4*u 4 j 0 + u 5 j 0) / dx
  let _d4pdy4Left := (u 2 (j-2) 0 - 4*u 2 (j-1) 0 + 6*u 2 j 0 - 4*u 2 (j+1) 0
    + u 2 (j+2) 0) / dy
  cavWrite st (imax-2) j
    ((u (imax-5) j 0 - 4*u (imax-4) j 0 + 6*u (imax-3) j 0 - 4*u (imax-2) j 0
      + u (imax-1) j 0) / dx)
    ((u (imax-2) (j-2) 0 - 4*u (imax-2) (j-1) 0 + 6*u (imax-2) j 0
      - 4*u (imax-2) (j+1) 0 + u (imax-2) (j+2) 0) / dy)

/-- One iteration of the bottom/top-wall strip loop (lines 1052-1066): the
bottom-wall (`j = 2`) stencils are computed and then OVERWRITTEN by the
top-wall (`j = jmax-2`) stencils before the single write at `(i, jmax-2)`. -/
def cavTB (u : Array3) (st : CavSt) (i : ℕ) : CavSt :=
  let _d4pdx4Bot := (u (i-2) 2 0 - 4*u (i-1) 2 0 + 6*u i 2 0 - 4*u (i+1) 2 0
    + u (i+2) 2 0) / dx
  let _d4pdy4Bot := (u i 1 0 - 4*u i 2 0 + 6*u i 3 0 - 4*u i 4 0 + u i 5 0) / dy
  cavWrite st i (jmax-2)
    ((u (i-2) (jmax-2) 0 - 4*u (i-1) (jmax-2) 0 + 6*u i (jmax-2) 0
      - 4*u (i+1) (jmax-2) 0 + u (i+2) (jmax-2) 0) / dx)
    ((u i (jmax-5) 0 - 4*u i (jmax-4) 0 + 6*u i (jmax-3) 0 - 4*u i (jmax-2) 0
      + u i (jmax-1) 0) / dy)

/-- `Compute_Artificial_Viscosity` (lines 932-1068): interior block
`i, j = 2 .. imax-4` (the loop guard is `i < imax-3`), then the four
corners, then the left/right strip `j = 2 .. jmax-2`, then the bottom/top
strip `i = 2 .. imax-2`.  `init` holds the entry values of the
uninitialized locals. -/
def Compute_Artificial_Viscosity (rsqrt : ℚ → ℚ) (u : Array3)
    (viscx viscy : Array2) (init : CavLocals) : CavSt :=
  let s1 := (ijList 2 (imax-5) 2 (jmax-5)).foldl (cavInterior rsqrt u)
    { locals := init, viscx := viscx, viscy := viscy }
  let s2 := cavBL u s1
  let s3 := cavTL u s2
  let s4 := cavBR u s3
  let s5 := cavTR u s4
  let s6 := (rangeFrom 2 (jmax-3)).foldl (cavLR u) s5
  (rangeFrom 2 (imax-3)).foldl (cavTB u) s6

/-! ### Read index sets of the near-boundary stencil cases (claim C2). -/

/-- The `(i, j)` pressure indices read by the four corner stencil cases
(lines 994-1033), transcribed stencil expression by stencil expression. -/
def cavCornerReads : List (ℕ × ℕ) :=
  [(0,1),(1,1),(2,1),(3,1),(4,1)] ++ [(1,0),(1,1),(1,2),(1,3),(1,4)] ++
  [(0,jmax-2),(1,jmax-2),(2,jmax-2),(3,jmax-2),(4,jmax-2)] ++
  [(1,jmax-5),(1,jmax-4),(1,jmax-3),(1,jmax-2),(1,jmax-1)] ++
  [(imax-5,1),(imax-4,1),(imax-3,1),(imax-2,1),(imax-1,1)] ++
  [(imax-2,0),(imax-2,1),(imax-2,2),(imax-2,3),(imax-2,4)] ++
  [(imax-5,jmax-2),(imax-4,jmax-2),(imax-3,jmax-2),(imax-2,jmax-2),(imax-1,jmax-2)] ++
  [(imax-2,jmax-5),(imax-2,jmax-4),(imax-2,jmax-3),(imax-2,jmax-2),(imax-2,jmax-1)]

/-- The `(i, j)` pressure indices read by iteration `j` of the
left/right-wall strip loop (lines 1038-1044): left-wall x stencil
(`i = 2`, indices `i-1 .. i+3`), left-wall y stencil (`j-2 .. j+2`),
right-wall x stencil (`i = imax-2`, indices `i-3 .. i+1`), right-wall y
stencil (`j-2 .. j+2`). -/
def cavLRReads (j : ℕ) : List (ℕ × ℕ) :=
  [(1,j),(2,j),(3,j),(4,j),(5,j)] ++ [(2,j-2),(2,j-1),(2,j),(2,j+1),(2,j+2)] ++
  [(imax-5,j),(imax-4,j),(imax-3,j),(imax-2,j),(imax-1,j)] ++
  [(imax-2,j-2),(imax-2,j-1),(imax-2,j),(imax-2,j+1),(imax-2,j+2)]

/-- The `(i, j)` pressure indices read by iteration `i` of the
bottom/top-wall strip loop (lines 1056-1061). -/
def cavTBReads (i : ℕ) : List (ℕ × ℕ) :=
  [(i-2,2),(i-1,2),(i,2),(i+1,2),(i+2,2)] ++ [(i,1),(i,2),(i,3),(i,4),(i,5)] ++
  [(i-2,jmax-2),(i-1,jmax-2),(i,jmax-2),(i+1,jmax-2),(i+2,jmax-2)] ++
  [(i,jmax-5),(i,jmax-4),(i,jmax-3),(i,jmax-2),(i,jmax-1)]

/-- All pressure indices the two edge-strip loops read, over their full
index ranges (`j = 2 .. jmax-2` and `i = 2 .. imax-2`). -/
def cavEdgeReads : List (ℕ × ℕ) :=
  (rangeFrom 2 (jmax-3)).flatMap cavLRReads ++ (rangeFrom 2 (imax-3)).flatMap cavTBReads

/-- Modelled on the spec's words for a refinement comparison (claim C1):
the documented interior dissipation value
`visc_x = -|lambda_x| * Cx * dx^3 * (d4p/dx4) / beta2` with
`lambda_x = (1/2)*(|u| + sqrt(u^2 + 4*beta2))` and
`beta2 = max(u^2 + v^2, rkappa*vel2ref)` taken from the cell's own
velocity, and the central five-point fourth difference. -/
def specViscX (rsqrt : ℚ → ℚ) (u : Array3) (i j : ℕ) : ℚ :=
  let beta2 := max (u i j 1 * u i j 1 + u i j 2 * u i j 2) (rkappa * vel2ref)
  let lambda_x := (1/2 : ℚ) * (|u i j 1| + rsqrt (u i j 1 * u i j 1 + 4 * beta2))
  let d4pdx4 := (u (i+2) j 0 - 4*u (i+1) j 0 + 6*u i j 0 - 4*u (i-1) j 0 + u (i-2) j 0) / (dx*dx*dx*dx)
  (-(|lambda_x|) * Cx * (dx*dx*dx) * d4pdx4 / beta2)

/-- Specification predicate: both dissipation arrays are identically zero
and the stale eigenvalue locals are zero. -/
def cavAllZero (st : CavSt) : Prop :=
  (∀ x y, st.viscx x y = 0 ∧ st.viscy x y = 0) ∧
  st.locals.lambda_x = 0 ∧ st.locals.lambda_y = 0

/-- A pressure field with a unit spike at cell `(10, 10)`, velocities zero. -/
def uSpike : Array3 := fun i j k => if i = 10 ∧ j = 10 ∧ k = 0 then 1 else 0


/-! ### `compute_time_step` (lines 862-928). -/

/-- The local pseudo-time step of interior cell `(i, j)` (lines 894-905):
`cfl * min(dtvisc, dtconv)` with `dtvisc = dx*dy/(4 nu)`,
`dtconv = min(dx,dy)/|lambda_max|`, and the eigenvalues computed with the
real constant `(1.0/2.0)` from the cell's own velocity. -/
def dtLocal (rsqrt : ℚ → ℚ) (u : Array3) (i j : ℕ) : ℚ :=
  let nu := rmu / rho
  let dtvisc := (dx * dy) / (4 * nu)
  let uvel2 := u i j 1 * u i j 1 + u i j 2 * u i j 2
  let beta2 := max uvel2 (rkappa * vel2ref)
  let lambda_x := (1/2 : ℚ) * (|u i j 1| + rsqrt (u i j 1 * u i j 1 + 4 * beta2))
  let lambda_y := (1/2 : ℚ) * (|u i j 2| + rsqrt (u i j 2 * u i j 2 + 4 * beta2))
  let lambda_max := max lambda_x lambda_y
  let dtconv := min dx dy / |lambda_max|
  cfl * min dtvisc dtconv

/-- `compute_time_step` (lines 862-928): the interior loop writes
`dt(i,j) = dtLocal` and folds `dtmin = min(dtmin, dt(i,j))` into the
caller's running `dtmin` (passed by reference, never reset inside the
function); afterwards every boundary row/column cell of `dt` is set to the
accumulated `dtmin`.  Returns the updated `dt` array and `dtmin`. -/
def compute_time_step (rsqrt : ℚ → ℚ) (u : Array3) (dt0 : Array2) (dtmin0 : ℚ) :
    Array2 × ℚ :=
  let core := (ijList 1 (imax-2) 1 (jmax-2)).foldl
    (fun (p : Array2 × ℚ) c =>
      (upd2 p.1 c.1 c.2 (dtLocal rsqrt u c.1 c.2), min p.2 (dtLocal rsqrt u c.1 c.2)))
    (dt0, dtmin0)
  let dtn1 := (List.range imax).foldl
    (fun w i => upd2 (upd2 w i 0 core.2) i (jmax-1) core.2) core.1
  let dtn2 := (List.range jmax).foldl
    (fun w j => upd2 (upd2 w 0 j core.2) (imax-1) j core.2) dtn1
  (dtn2, core.2)

/-! ### The two relaxation iterations (lines 327-366) and the SGS sweeps
(lines 1072-1197). -/

/-- One per-cell update of a symmetric Gauss-Seidel sweep (lines
1114-1129 and 1178-1193 — the two sweep bodies are identical up to
parenthesization): all derivatives are read from the live field `a`
before the three in-place assignments; the `k = 2` assignment reads the
x-velocity value just written by the `k = 1` assignment. -/
def sgsBody (viscx viscy dt : Array2) (s : Array3) (a : Array3) (c : ℕ × ℕ) : Array3 :=
  let i := c.1
  let j := c.2
  let dpdx := (a (i+1) j 0 - a (i-1) j 0) / (2*dx)
  let dudx := (a (i+1) j 1 - a (i-1) j 1) / (2*dx)
  let dvdx := (a (i+1) j 2 - a (i-1) j 2) / (2*dx)
  let dpdy := (a i (j+1) 0 - a i (j-1) 0) / (2*dy)
  let dudy := (a i (j+1) 1 - a i (j-1) 1) / (2*dy)
  let dvdy := (a i (j+1) 2 - a i (j-1) 2) / (2*dy)
  let d2udx2 := (a (i+1) j 1 - 2*a i j 1 + a (i-1) j 1) / (dx*dx)
  let d2vdx2 := (a (i+1) j 2 - 2*a i j 2 + a (i-1) j 2) / (dx*dx)
  let d2udy2 := (a i (j+1) 1 - 2*a i j 1 + a i (j-1) 1) / (dy*dy)
  let d2vdy2 := (a i (j+1) 2 - 2*a i j 2 + a i (j-1) 2) / (dy*dy)
  let uvel2 := a i j 1 * a i j 1 + a i j 2 * a i j 2
  let beta2 := max uvel2 (rkappa * vel2ref)
  let a0 := upd3 a i j 0 (a i j 0 - beta2 * dt i j *
    (rho * dudx + rho * dvdy - viscx i j - viscy i j - s i j 0))
  let a1 := upd3 a0 i j 1 (a0 i j 1 - dt i j * rhoinv *
    (rho * a0 i j 1 * dudx + rho * a0 i j 2 * dudy + dpdx
      - rmu * d2udx2 - rmu * d2udy2 - s i j 1))
  upd3 a1 i j 2 (a1 i j 2 - dt i j * rhoinv *
    (rho * a1 i j 1 * dvdx + rho * a1 i j 2 * dvdy + dpdy
      - rmu * d2vdx2 - rmu * d2vdy2 - s i j 2))

/-- `SGS_forward_sweep` (lines 1072-1134): in place over the interior,
ascending `i` then ascending `j`. -/
def SGS_forward_sweep (u : Array3) (viscx viscy dt : Array2) (s : Array3) : Array3 :=
  (ijList 1 (imax-2) 1 (jmax-2)).foldl (sgsBody viscx viscy dt s) u

/-- The descending cell sequence of the backward sweep (lines 1174-1176):
`i = imax-2 .. 1` outer, `j = jmax-2 .. 1` inner. -/
def ijListDesc (i0 ni j0 nj : ℕ) : List (ℕ × ℕ) :=
  ((rangeFrom i0 ni).reverse).flatMap
    (fun i => ((rangeFrom j0 nj).reverse).map (fun j => (i, j)))

/-- `SGS_backward_sweep` (lines 1138-1197): the same per-cell update, in
place, descending `i` then descending `j`. -/
def SGS_backward_sweep (u : Array3) (viscx viscy dt : Array2) (s : Array3) : Array3 :=
  (ijListDesc 1 (imax-2) 1 (jmax-2)).foldl (sgsBody viscx viscy dt s) u

/-- `GS_iteration` (lines 327-349): deep copy of `u` into `uold`
(`uold.copyData(u)`, a copy, not a pointer swap), dissipation from the
live field, forward sweep, boundary conditions, dissipation again from
the partially relaxed field, backward sweep, boundary conditions.  `bc`
is the boundary-condition function pointer; `init1`, `init2` hold the
entry values of the dissipation routine's uninitialized locals at its two
calls.  Returns (current field, old field, viscx, viscy). -/
def GS_iteration (rsqrt : ℚ → ℚ) (init1 init2 : CavLocals) (bc : Array3 → Array3)
    (u uold : Array3) (src : Array3) (viscx viscy dt : Array2) :
    Array3 × Array3 × Array2 × Array2 :=
  let uoldN := u
  let c1 := Compute_Artificial_Viscosity rsqrt u viscx viscy init1
  let u1 := SGS_forward_sweep u c1.viscx c1.viscy dt src
  let u2 := bc u1
  let c2 := Compute_Artificial_Viscosity rsqrt u2 c1.viscx c1.viscy init2
  let u3 := SGS_backward_sweep u2 c2.viscx c2.viscy dt src
  let u4 := bc u3
  (u4, uoldN, c2.viscx, c2.viscy)

/-- `PJ_iteration` (lines 353-366): pointer swap of `u` and `uold`
(`uold.swapData(u)`), dissipation computed from the swapped-in `uold`
(the pre-step current field), point-Jacobi interior update into the
current buffer (which after the swap holds the previous old field),
boundary conditions.  Returns (current field, old field, viscx, viscy). -/
def PJ_iteration (rsqrt : ℚ → ℚ) (init : CavLocals) (bc : Array3 → Array3)
    (u uold : Array3) (src : Array3) (viscx viscy dt : Array2) :
    Array3 × Array3 × Array2 × Array2 :=
  let uoldN := u
  let ucur := uold
  let c := Compute_Artificial_Viscosity rsqrt uoldN viscx viscy init
  let u1 := point_Jacobi ucur uoldN c.viscx c.viscy dt src
  let u2 := bc u1
  (u2, uoldN, c.viscx, c.viscy)


/-- The partially relaxed field the forward sweep has produced when it is
about to update cell `(i, j)`: the in-place fold over the cells that
precede `(i, j)` in ascending sweep order (full rows `1 .. i-1`, then row
`i` up to column `j-1`). -/
def sgsPrefixF (viscx viscy dt : Array2) (s : Array3) (w : Array3) (i j : ℕ) : Array3 :=
  (ijList 1 (i-1) 1 (jmax-2) ++ (rangeFrom 1 (j-1)).map (fun j2 => (i, j2))).foldl
    (sgsBody viscx viscy dt s) w

/-- The partially relaxed field the backward sweep has produced when it is
about to update cell `(i, j)`: the in-place fold over the cells that
precede `(i, j)` in descending sweep order (full rows `imax-2 .. i+1`
descending, then row `i` from column `jmax-2` down to `j+1`). -/
def sgsPrefixB (viscx viscy dt : Array2) (s : Array3) (w : Array3) (i j : ℕ) : Array3 :=
  (((rangeFrom (i+1) (imax-2-i)).reverse).flatMap
      (fun i2 => ((rangeFrom 1 (jmax-2)).reverse).map (fun j2 => (i2, j2)))
    ++ ((rangeFrom (j+1) (jmax-2-j)).reverse).map (fun j2 => (i, j2))).foldl
    (sgsBody viscx viscy dt s) w

/-! ### `check_iterative_convergence` (lines 1306-1384) and the driver
loop of `main` (lines 1436-1587). -/

/-- The interior sum of squared pseudo-time derivatives
`res[k] += ((u(i,j,k)-uold(i,j,k))/dt(i,j))^2` (lines 1341-1355). -/
def resSumOf (u uold : Array3) (dt : Array2) : ℕ → ℚ :=
  (ijList 1 (imax-2) 1 (jmax-2)).foldl
    (fun r c => fun k =>
      if k < 3 then
        r k + ((u c.1 c.2 k - uold c.1 c.2 k) / dt c.1 c.2)
          * ((u c.1 c.2 k - uold c.1 c.2 k) / dt c.1 c.2)
      else r k)
    (fun _ => 0)

/-- `check_iterative_convergence` (lines 1306-1384): per-equation RMS of
the interior pseudo-time derivatives normalized by the interior cell
count, divided by `resinit[k]`, and the convergence scalar
`conv = max(max(res[0], res[1]), res[2])` (lines 1357-1366).  The
function only reads `resinit`, it never writes it. -/
def check_iterative_convergence (rsqrt : ℚ → ℚ) (u uold : Array3) (dt : Array2)
    (resinit : ℕ → ℚ) : (ℕ → ℚ) × ℚ :=
  let res : ℕ → ℚ := fun k =>
    rsqrt (resSumOf u uold dt k / (((imax : ℚ) - 2) * ((jmax : ℚ) - 2))) / resinit k
  (res, max (max (res 0) (res 1)) (res 2))

/-- `initial` (lines 410-477), fresh-run branch `irstr = 0`, `resinit`
part (lines 432-435): every component of the initial residual vector is
set to `one` and the main loop never writes it again. -/
def initial_resinit : ℕ → ℚ := fun _ => 1

/-- The per-iteration state owned by `main` (lines 1436-1464). -/
structure DState where
  u : Array3
  uold : Array3
  viscx : Array2
  viscy : Array2
  dt : Array2
  dtmin : ℚ
  rtime : ℚ
  res : ℕ → ℚ
  resinit : ℕ → ℚ
  conv : ℚ

/-- One iteration of the main loop (lines 1533-1562) in this build
(`isgs = 0` selects `PJ_iteration`, `imms = 0` selects `bndry` and the
`pinf` pressure reference): compute the time step, run the relaxation
step, rescale the pressure, advance simulated time by `dtmin`, run the
convergence check.  `init` holds the dissipation routine's uninitialized
locals for this iteration. -/
def driverStep (rsqrt rsin rcos : ℚ → ℚ) (rpiv : ℚ) (init : CavLocals) (src : Array3)
    (s : DState) : DState :=
  let t := compute_time_step rsqrt s.u s.dt s.dtmin
  let p := PJ_iteration rsqrt init bndry s.u s.uold src s.viscx s.viscy t.1
  let u2 := pressure_rescaling rsin rcos rpiv 0 p.1
  let rc := check_iterative_convergence rsqrt u2 p.2.1 t.1 s.resinit
  { u := u2
    uold := p.2.1
    viscx := p.2.2.1
    viscy := p.2.2.2
    dt := t.1
    dtmin := t.2
    rtime := s.rtime + t.2
    res := rc.1
    resinit := s.resinit
    conv := rc.2 }

/-- `n` iterations of the driver loop; `inits` supplies each iteration's
uninitialized dissipation locals. -/
def driverIter (rsqrt rsin rcos : ℚ → ℚ) (rpiv : ℚ) (inits : ℕ → CavLocals)
    (src : Array3) : ℕ → DState → DState
  | 0, s => s
  | n+1, s => driverStep rsqrt rsin rcos rpiv (inits n) src
      (driverIter rsqrt rsin rcos rpiv inits src n s)

/-- A concrete fresh-run driver state (all-zero fields, `resinit` from
`initial`). -/
def dState0 : DState :=
  ⟨zf3, zf3, zs2, zs2, zs2, 0, 0, initial_resinit, initial_resinit, 0⟩

/-! ## Generic infrastructure lemmas -/

theorem upd3_eval (u : Array3) (i0 j0 k0 : ℕ) (v : ℚ) (i j k : ℕ) :
    upd3 u i0 j0 k0 v i j k = if i = i0 ∧ j = j0 ∧ k = k0 then v else u i j k := rfl

theorem upd2_eval (w : Array2) (i0 j0 : ℕ) (v : ℚ) (i j : ℕ) :
    upd2 w i0 j0 v i j = if i = i0 ∧ j = j0 then v else w i j := rfl

theorem mem_rangeFrom {lo n x : ℕ} : x ∈ rangeFrom lo n ↔ lo ≤ x ∧ x < lo + n := by
  simp only [rangeFrom, List.mem_map, List.mem_range]
  constructor
  · rintro ⟨t, ht, rfl⟩; omega
  · rintro ⟨h1, h2⟩; exact ⟨x - lo, by omega, by omega⟩

theorem rangeFrom_nodup (lo n : ℕ) : (rangeFrom lo n).Nodup :=
  (List.nodup_range n).map (fun a b h => by omega)

theorem mem_ijList {i0 ni j0 nj : ℕ} {c : ℕ × ℕ} :
    c ∈ ijList i0 ni j0 nj ↔ (i0 ≤ c.1 ∧ c.1 < i0 + ni) ∧ (j0 ≤ c.2 ∧ c.2 < j0 + nj) := by
  obtain ⟨a, b⟩ := c
  simp only [ijList, List.mem_flatMap, List.mem_map, Prod.mk.injEq]
  constructor
  · rintro ⟨i, hi, j, hj, rfl, rfl⟩
    exact ⟨mem_rangeFrom.mp hi, mem_rangeFrom.mp hj⟩
  · rintro ⟨h1, h2⟩
    exact ⟨a, mem_rangeFrom.mpr h1, b, mem_rangeFrom.mpr h2, rfl, rfl⟩

theorem ijList_nodup (i0 ni j0 nj : ℕ) : (ijList i0 ni j0 nj).Nodup := by
  refine List.nodup_flatMap.mpr ⟨fun i _ => (rangeFrom_nodup j0 nj).map ?_, ?_⟩
  · intro a b h; simpa using h
  · refine (rangeFrom_nodup i0 ni).imp ?_
    intro a b hne
    simp only [Function.onFun]
    intro c hc hc'
    simp only [List.mem_map] at hc hc'
    obtain ⟨j, _, rfl⟩ := hc
    obtain ⟨j', _, h'⟩ := hc'
    injection h' with h1 h2
    exact hne h1.symm

/-! ### Generic loop lemmas

A C loop is a `List.foldl` of its body over its index sequence.  The lemmas
below read off the final value of one observable (one array slot) from the
body's per-iteration behaviour. -/

/-- A loop that never writes the observable leaves it unchanged. -/
theorem foldl_obs_pres {σ α β : Type} (body : σ → α → σ) (obs : σ → β)
    (l : List α) (s : σ) (h : ∀ a x, x ∈ l → obs (body a x) = obs a) :
    obs (l.foldl body s) = obs s := by
  induction l generalizing s with
  | nil => rfl
  | cons y t ih =>
      rw [List.foldl_cons, ih _ (fun a x hx => h a x (List.mem_cons_of_mem _ hx)),
        h s y (List.mem_cons_self _ _)]

/-- A loop whose iteration `x` writes the constant `v` into the observable,
and whose other iterations leave it alone, ends with the observable holding
`v` (duplicate-free index list). -/
theorem foldl_obs_once {σ α β : Type} [DecidableEq α] (body : σ → α → σ) (obs : σ → β)
    (l : List α) (x : α) (v : β) (hmem : x ∈ l) (hnd : l.Nodup)
    (hframe : ∀ a y, y ∈ l → y ≠ x → obs (body a y) = obs a)
    (hval : ∀ a, obs (body a x) = v) :
    ∀ s, obs (l.foldl body s) = v := by
  induction l with
  | nil => cases hmem
  | cons y t ih =>
      intro s
      rcases List.mem_cons.mp hmem with h | hxt
      · subst h
        rw [List.foldl_cons,
          foldl_obs_pres body obs t (body s x)
            (fun a z hz => hframe a z (List.mem_cons_of_mem _ hz)
              (fun h => (List.nodup_cons.mp hnd).1 (h ▸ hz))),
          hval]
      · rw [List.foldl_cons]
        exact ih hxt (List.nodup_cons.mp hnd).2
          (fun a z hz hzx => hframe a z (List.mem_cons_of_mem _ hz) hzx) _

/-- Like `foldl_obs_once`, but the written value is a function `f` of the
observable's current (still untouched) value. -/
theorem foldl_obs_once_map {σ α β : Type} [DecidableEq α] (body : σ → α → σ) (obs : σ → β)
    (l : List α) (x : α) (f : β → β) (hmem : x ∈ l) (hnd : l.Nodup)
    (hframe : ∀ a y, y ∈ l → y ≠ x → obs (body a y) = obs a)
    (hval : ∀ a, obs (body a x) = f (obs a)) :
    ∀ s, obs (l.foldl body s) = f (obs s) := by
  induction l with
  | nil => cases hmem
  | cons y t ih =>
      intro s
      rcases List.mem_cons.mp hmem with h | hxt
      · subst h
        rw [List.foldl_cons,
          foldl_obs_pres body obs t (body s x)
            (fun a z hz => hframe a z (List.mem_cons_of_mem _ hz)
              (fun h => (List.nodup_cons.mp hnd).1 (h ▸ hz))),
          hval]
      · rw [List.foldl_cons,
          ih hxt (List.nodup_cons.mp hnd).2
            (fun a z hz hzx => hframe a z (List.mem_cons_of_mem _ hz) hzx) _,
          hframe s y (List.mem_cons_self _ _) (fun h => (List.nodup_cons.mp hnd).1 (h ▸ hxt))]

/-- A loop every iteration of which stores `v` into the observable ends with
`v` whenever it runs at least once. -/
theorem foldl_obs_const {σ α β : Type} (body : σ → α → σ) (obs : σ → β)
    (l : List α) (v : β) (hne : l ≠ [])
    (hval : ∀ a x, x ∈ l → obs (body a x) = v) :
    ∀ s, obs (l.foldl body s) = v := by
  induction l with
  | nil => cases hne rfl
  | cons y t ih =>
      intro s
      rcases Classical.em (t = []) with rfl | hte
      · exact hval s y (List.mem_cons_self _ _)
      · exact ih hte (fun a x hx => hval a x (List.mem_cons_of_mem _ hx)) _

/-- An invariant preserved by every iteration holds after the loop. -/
theorem foldl_obs_inv {σ α : Type} (body : σ → α → σ) (I : σ → Prop)
    (l : List α) (h : ∀ a x, x ∈ l → I a → I (body a x)) :
    ∀ s, I s → I (l.foldl body s) := by
  induction l with
  | nil => exact fun s hs => hs
  | cons y t ih =>
      intro s hs
      exact ih (fun a x hx => h a x (List.mem_cons_of_mem _ hx)) _
        (h s y (List.mem_cons_self _ _) hs)


/-! ## Lemmas about `bndry` -/

theorem bndrySide_untouched (a : Array3) (x i j k : ℕ) (hi : i ≠ 0) (hi2 : i ≠ imax - 1) :
    bndrySide a x i j k = a i j k := by
  simp [bndrySide, upd3, hi, hi2]

theorem bndrySide_untouched_row (a : Array3) (x i j k : ℕ) (hj : j ≠ x) :
    bndrySide a x i j k = a i j k := by
  simp [bndrySide, upd3, hj]

theorem bndryTopBot_untouched (a : Array3) (x i j k : ℕ) (hj : j ≠ 0) (hj2 : j ≠ jmax - 1) :
    bndryTopBot a x i j k = a i j k := by
  simp [bndryTopBot, upd3, hj, hj2]

theorem bndryTopBot_untouched_col (a : Array3) (x i j k : ℕ) (hi : i ≠ x) :
    bndryTopBot a x i j k = a i j k := by
  simp [bndryTopBot, upd3, hi]

theorem bndry_row_preserved (u : Array3) (i j k : ℕ) (hj : j ≠ 0) (hj2 : j ≠ jmax - 1) :
    bndry u i j k = bndrySideLoop u i j k :=
  foldl_obs_pres bndryTopBot (fun a : Array3 => a i j k) (List.range imax) _
    (fun a x _ => bndryTopBot_untouched a x i j k hj hj2)

theorem bndrySideLoop_untouched (u : Array3) (i j k : ℕ) (hi : i ≠ 0) (hi2 : i ≠ imax - 1) :
    bndrySideLoop u i j k = u i j k :=
  foldl_obs_pres bndrySide (fun a : Array3 => a i j k) _ u
    (fun a x _ => bndrySide_untouched a x i j k hi hi2)

/-- `bndry` writes only the four border rows/columns. -/
theorem bndry_interior (u : Array3) (i j k : ℕ) (hi : i ≠ 0) (hi2 : i ≠ imax - 1)
    (hj : j ≠ 0) (hj2 : j ≠ jmax - 1) :
    bndry u i j k = u i j k := by
  rw [bndry_row_preserved u i j k hj hj2, bndrySideLoop_untouched u i j k hi hi2]

theorem bndrySideLoop_left (u : Array3) (j : ℕ) (hj : 1 ≤ j) (hj2 : j ≤ jmax - 2) :
    bndrySideLoop u 0 j 0 = 2 * u 1 j 0 - u 2 j 0 ∧
    bndrySideLoop u 0 j 1 = 0 ∧ bndrySideLoop u 0 j 2 = 0 := by
  have hjm : jmax = 65 := rfl
  have hmem : j ∈ rangeFrom 1 (jmax - 2) := mem_rangeFrom.mpr ⟨hj, by omega⟩
  refine ⟨?_, ?_, ?_⟩
  · have h := foldl_obs_once_map bndrySide
      (fun a : Array3 => (a 0 j 0, a 1 j 0, a 2 j 0))
      (rangeFrom 1 (jmax - 2)) j (fun t => (2 * t.2.1 - t.2.2, t.2.1, t.2.2))
      hmem (rangeFrom_nodup _ _)
      (fun a y _ hyj => by
        show (bndrySide a y 0 j 0, bndrySide a y 1 j 0, bndrySide a y 2 j 0) = _
        rw [bndrySide_untouched_row a y 0 j 0 (Ne.symm hyj),
          bndrySide_untouched a y 1 j 0 (by norm_num) (by simp [imax]),
          bndrySide_untouched a y 2 j 0 (by norm_num) (by simp [imax])])
      (fun a => by
        show (bndrySide a j 0 j 0, bndrySide a j 1 j 0, bndrySide a j 2 j 0) = _
        simp [bndrySide, upd3, imax]) u
    exact congrArg Prod.fst h
  · exact foldl_obs_once bndrySide (fun a : Array3 => a 0 j 1) _ j 0 hmem
      (rangeFrom_nodup _ _)
      (fun a y _ hyj => bndrySide_untouched_row a y 0 j 1 (Ne.symm hyj))
      (fun a => by simp [bndrySide, upd3, imax]) u
  · exact foldl_obs_once bndrySide (fun a : Array3 => a 0 j 2) _ j 0 hmem
      (rangeFrom_nodup _ _)
      (fun a y _ hyj => bndrySide_untouched_row a y 0 j 2 (Ne.symm hyj))
      (fun a => by simp [bndrySide, upd3, imax]) u

theorem bndrySideLoop_right (u : Array3) (j : ℕ) (hj : 1 ≤ j) (hj2 : j ≤ jmax - 2) :
    bndrySideLoop u (imax-1) j 0 = 2 * u (imax-2) j 0 - u (imax-3) j 0 ∧
    bndrySideLoop u (imax-1) j 1 = 0 ∧ bndrySideLoop u (imax-1) j 2 = 0 := by
  have hjm : jmax = 65 := rfl
  have hmem : j ∈ rangeFrom 1 (jmax - 2) := mem_rangeFrom.mpr ⟨hj, by omega⟩
  refine ⟨?_, ?_, ?_⟩
  · have h := foldl_obs_once_map bndrySide
      (fun a : Array3 => (a (imax-1) j 0, a (imax-2) j 0, a (imax-3) j 0))
      (rangeFrom 1 (jmax - 2)) j (fun t => (2 * t.2.1 - t.2.2, t.2.1, t.2.2))
      hmem (rangeFrom_nodup _ _)
      (fun a y _ hyj => by
        show (bndrySide a y (imax-1) j 0, bndrySide a y (imax-2) j 0,
          bndrySide a y (imax-3) j 0) = _
        rw [bndrySide_untouched_row a y (imax-1) j 0 (Ne.symm hyj),
          bndrySide_untouched a y (imax-2) j 0 (by simp [imax]) (by simp [imax]),
          bndrySide_untouched a y (imax-3) j 0 (by simp [imax]) (by simp [imax])])
      (fun a => by
        show (bndrySide a j (imax-1) j 0, bndrySide a j (imax-2) j 0,
          bndrySide a j (imax-3) j 0) = _
        simp [bndrySide, upd3, imax]) u
    exact congrArg Prod.fst h
  · exact foldl_obs_once bndrySide (fun a : Array3 => a (imax-1) j 1) _ j 0 hmem
      (rangeFrom_nodup _ _)
      (fun a y _ hyj => bndrySide_untouched_row a y (imax-1) j 1 (Ne.symm hyj))
      (fun a => by simp [bndrySide, upd3, imax]) u
  · exact foldl_obs_once bndrySide (fun a : Array3 => a (imax-1) j 2) _ j 0 hmem
      (rangeFrom_nodup _ _)
      (fun a y _ hyj => bndrySide_untouched_row a y (imax-1) j 2 (Ne.symm hyj))
      (fun a => by simp [bndrySide, upd3, imax]) u

theorem bndry_side_eval (u : Array3) (j : ℕ) (hj : 1 ≤ j) (hj2 : j ≤ jmax - 2) :
    bndry u 0 j 0 = 2 * u 1 j 0 - u 2 j 0 ∧ bndry u 0 j 1 = 0 ∧ bndry u 0 j 2 = 0 ∧
    bndry u (imax-1) j 0 = 2 * u (imax-2) j 0 - u (imax-3) j 0 ∧
    bndry u (imax-1) j 1 = 0 ∧ bndry u (imax-1) j 2 = 0 := by
  have hjm : jmax = 65 := rfl
  have h0 : j ≠ 0 := by omega
  have h1 : j ≠ jmax - 1 := by omega
  obtain ⟨p1, v1, w1⟩ := bndrySideLoop_left u j hj hj2
  obtain ⟨p2, v2, w2⟩ := bndrySideLoop_right u j hj hj2
  exact ⟨(bndry_row_preserved u 0 j 0 h0 h1).trans p1,
    (bndry_row_preserved u 0 j 1 h0 h1).trans v1,
    (bndry_row_preserved u 0 j 2 h0 h1).trans w1,
    (bndry_row_preserved u (imax-1) j 0 h0 h1).trans p2,
    (bndry_row_preserved u (imax-1) j 1 h0 h1).trans v2,
    (bndry_row_preserved u (imax-1) j 2 h0 h1).trans w2⟩

theorem bndry_bottom_eval (u : Array3) (i : ℕ) (hi : i < imax) :
    bndry u i 0 0 = 2 * bndrySideLoop u i 1 0 - bndrySideLoop u i 2 0 ∧
    bndry u i 0 1 = 0 ∧ bndry u i 0 2 = 0 := by
  have hmem : i ∈ List.range imax := List.mem_range.mpr hi
  refine ⟨?_, ?_, ?_⟩
  · have h := foldl_obs_once_map bndryTopBot
      (fun a : Array3 => (a i 0 0, a i 1 0, a i 2 0))
      (List.range imax) i (fun t => (2 * t.2.1 - t.2.2, t.2.1, t.2.2))
      hmem (List.nodup_range _)
      (fun a y _ hyi => by
        show (bndryTopBot a y i 0 0, bndryTopBot a y i 1 0, bndryTopBot a y i 2 0) = _
        rw [bndryTopBot_untouched_col a y i 0 0 (Ne.symm hyi),
          bndryTopBot_untouched_col a y i 1 0 (Ne.symm hyi),
          bndryTopBot_untouched_col a y i 2 0 (Ne.symm hyi)])
      (fun a => by
        show (bndryTopBot a i i 0 0, bndryTopBot a i i 1 0, bndryTopBot a i i 2 0) = _
        simp [bndryTopBot, upd3, jmax]) (bndrySideLoop u)
    exact congrArg Prod.fst h
  · exact foldl_obs_once bndryTopBot (fun a : Array3 => a i 0 1) _ i 0 hmem
      (List.nodup_range _)
      (fun a y _ hyi => bndryTopBot_untouched_col a y i 0 1 (Ne.symm hyi))
      (fun a => by simp [bndryTopBot, upd3, jmax]) (bndrySideLoop u)
  · exact foldl_obs_once bndryTopBot (fun a : Array3 => a i 0 2) _ i 0 hmem
      (List.nodup_range _)
      (fun a y _ hyi => bndryTopBot_untouched_col a y i 0 2 (Ne.symm hyi))
      (fun a => by simp [bndryTopBot, upd3, jmax]) (bndrySideLoop u)

theorem bndry_top_eval (u : Array3) (i : ℕ) (hi : i < imax) :
    bndry u i (jmax-1) 0 =
      2 * bndrySideLoop u i (jmax-2) 0 - bndrySideLoop u i (jmax-3) 0 ∧
    bndry u i (jmax-1) 1 = uinf ∧ bndry u i (jmax-1) 2 = 0 := by
  have hmem : i ∈ List.range imax := List.mem_range.mpr hi
  refine ⟨?_, ?_, ?_⟩
  · have h := foldl_obs_once_map bndryTopBot
      (fun a : Array3 => (a i (jmax-1) 0, a i (jmax-2) 0, a i (jmax-3) 0))
      (List.range imax) i (fun t => (2 * t.2.1 - t.2.2, t.2.1, t.2.2))
      hmem (List.nodup_range _)
      (fun a y _ hyi => by
        show (bndryTopBot a y i (jmax-1) 0, bndryTopBot a y i (jmax-2) 0,
          bndryTopBot a y i (jmax-3) 0) = _
        rw [bndryTopBot_untouched_col a y i (jmax-1) 0 (Ne.symm hyi),
          bndryTopBot_untouched_col a y i (jmax-2) 0 (Ne.symm hyi),
          bndryTopBot_untouched_col a y i (jmax-3) 0 (Ne.symm hyi)])
      (fun a => by
        show (bndryTopBot a i i (jmax-1) 0, bndryTopBot a i i (jmax-2) 0,
          bndryTopBot a i i (jmax-3) 0) = _
        simp [bndryTopBot, upd3, jmax]) (bndrySideLoop u)
    exact congrArg Prod.fst h
  · exact foldl_obs_once bndryTopBot (fun a : Array3 => a i (jmax-1) 1) _ i uinf hmem
      (List.nodup_range _)
      (fun a y _ hyi => bndryTopBot_untouched_col a y i (jmax-1) 1 (Ne.symm hyi))
      (fun a => by simp [bndryTopBot, upd3, jmax]) (bndrySideLoop u)
  · exact foldl_obs_once bndryTopBot (fun a : Array3 => a i (jmax-1) 2) _ i 0 hmem
      (List.nodup_range _)
      (fun a y _ hyi => bndryTopBot_untouched_col a y i (jmax-1) 2 (Ne.symm hyi))
      (fun a => by simp [bndryTopBot, upd3, jmax]) (bndrySideLoop u)

/-! ## Lemmas about `pressure_rescaling` -/

theorem presBody_untouched (d : ℚ) (a : Array3) (c : ℕ × ℕ) (i j k : ℕ)
    (h : ¬(i = c.1 ∧ j = c.2 ∧ k = 0)) : presBody d a c i j k = a i j k := by
  simp only [presBody, upd3, if_neg h]

theorem pressure_rescaling_p (rsin rcos : ℚ → ℚ) (rpiv : ℚ) (immsv : ℕ) (u : Array3)
    (i j : ℕ) (hi : i < imax) (hj : j < jmax) :
    pressure_rescaling rsin rcos rpiv immsv u i j 0 =
      u i j 0 - deltapOf rsin rcos rpiv immsv u :=
  foldl_obs_once_map (presBody (deltapOf rsin rcos rpiv immsv u))
    (fun a : Array3 => a i j 0) (ijList 0 imax 0 jmax) (i, j)
    (fun t => t - deltapOf rsin rcos rpiv immsv u)
    (mem_ijList.mpr ⟨⟨Nat.zero_le _, by omega⟩, ⟨Nat.zero_le _, by omega⟩⟩)
    (ijList_nodup _ _ _ _)
    (fun a y _ hyx => presBody_untouched _ a y i j 0 (by
      rintro ⟨h1, h2, -⟩
      exact hyx (by cases y; simp_all)))
    (fun a => by simp [presBody, upd3]) u

/-! ## Claim theorems C5, C8, C10 -/

/-- C8: after a call to the physical-wall boundary-condition provider
`bndry`, every border cell satisfies: left wall (`i = 0`), right wall
(`i = imax-1`) and bottom wall (`j = 0`) carry `(u,v) = (0,0)`; the top
wall (`j = jmax-1`) carries `(u,v) = (uinf, 0)`; the four corner cells
take the values written by the top/bottom-wall loop, which runs last and
covers `i = 0 .. imax-1` (second conjunct at `i ∈ {0, imax-1}`). -/
theorem claim_C8_bndry_walls (u : Array3) :
    (∀ j, 1 ≤ j → j ≤ jmax - 2 →
      bndry u 0 j 1 = 0 ∧ bndry u 0 j 2 = 0 ∧
      bndry u (imax-1) j 1 = 0 ∧ bndry u (imax-1) j 2 = 0) ∧
    (∀ i, i < imax →
      bndry u i 0 1 = 0 ∧ bndry u i 0 2 = 0 ∧
      bndry u i (jmax-1) 1 = uinf ∧ bndry u i (jmax-1) 2 = 0) := by
  constructor
  · intro j hj hj2
    obtain ⟨-, v1, w1, -, v2, w2⟩ := bndry_side_eval u j hj hj2
    exact ⟨v1, w1, v2, w2⟩
  · intro i hi
    obtain ⟨-, v1, w1⟩ := bndry_bottom_eval u i hi
    obtain ⟨-, v2, w2⟩ := bndry_top_eval u i hi
    exact ⟨v1, w1, v2, w2⟩

/-- C8 witness: concrete instances of the wall conditions, including the
top-left corner owned by the top-wall loop. -/
theorem claim_C8_witness :
    bndry uSamp 0 5 1 = 0 ∧ bndry uSamp 0 (jmax-1) 1 = uinf ∧
    bndry uSamp 7 0 2 = 0 :=
  ⟨((claim_C8_bndry_walls uSamp).1 5 (by decide) (by decide)).1,
   ((claim_C8_bndry_walls uSamp).2 0 (by decide)).2.2.1,
   ((claim_C8_bndry_walls uSamp).2 7 (by decide)).2.1⟩

/-- C5: `pressure_rescaling` subtracts the single value `deltap`
(center-cell pressure minus the reference pressure: `pinf` when
`imms = 0`, the exact MMS pressure at the center location when
`imms = 1`) uniformly from every cell's pressure, and afterwards the
center-cell pressure equals the reference value exactly (exact rational
arithmetic models exact real arithmetic). -/
theorem claim_C5_pressure_anchor (rsin rcos : ℚ → ℚ) (rpiv : ℚ) (immsv : ℕ) (u : Array3) :
    (∀ i j, i < imax → j < jmax →
      pressure_rescaling rsin rcos rpiv immsv u i j 0 =
        u i j 0 - deltapOf rsin rcos rpiv immsv u) ∧
    pressure_rescaling rsin rcos rpiv immsv u ((imax-1)/2) ((jmax-1)/2) 0 =
      (if immsv = 1 then
        umms rsin rcos rpiv ((xmax - xmin) * ((((imax-1)/2 : ℕ)) : ℚ) / ((imax : ℚ) - 1))
          ((ymax - ymin) * ((((jmax-1)/2 : ℕ)) : ℚ) / ((jmax : ℚ) - 1)) 0
       else pinf) := by
  refine ⟨fun i j hi hj => pressure_rescaling_p rsin rcos rpiv immsv u i j hi hj, ?_⟩
  rw [pressure_rescaling_p rsin rcos rpiv immsv u _ _ (by decide) (by decide)]
  by_cases h : immsv = 1 <;> simp [deltapOf, h]

/-- C5 witness: at a concrete field and `imms = 0`, the center cell holds
`pinf` after the call. -/
theorem claim_C5_witness :
    pressure_rescaling zq zq 0 0 uSamp ((imax-1)/2) ((jmax-1)/2) 0 = pinf ∧
    pressure_rescaling zq zq 0 0 uSamp 3 4 0 = uSamp 3 4 0 - deltapOf zq zq 0 0 uSamp :=
  ⟨(claim_C5_pressure_anchor zq zq 0 0 uSamp).2.trans (by norm_num),
   (claim_C5_pressure_anchor zq zq 0 0 uSamp).1 3 4 (by decide) (by decide)⟩

/-- C10: `pressure_rescaling` modifies only the pressure component
(`k = 0`); the x-velocity (`k = 1`) and y-velocity (`k = 2`) of every
cell are exactly unchanged. -/
theorem claim_C10_rescaling_velocity_frame (rsin rcos : ℚ → ℚ) (rpiv : ℚ) (immsv : ℕ)
    (u : Array3) (i j k : ℕ) (hk : k ≠ 0) :
    pressure_rescaling rsin rcos rpiv immsv u i j k = u i j k :=
  foldl_obs_pres (presBody (deltapOf rsin rcos rpiv immsv u))
    (fun a : Array3 => a i j k) (ijList 0 imax 0 jmax) u
    (fun a c _ => presBody_untouched _ a c i j k (fun h => hk h.2.2))

/-- C10 witness: the x-velocity of a concrete cell is unchanged. -/
theorem claim_C10_witness :
    pressure_rescaling zq zq 0 0 uSamp 3 4 1 = uSamp 3 4 1 :=
  claim_C10_rescaling_velocity_frame zq zq 0 0 uSamp 3 4 1 (by decide)

/-! ## Lemmas about `point_Jacobi` -/

theorem pjBody_untouched (uold : Array3) (viscx viscy dt : Array2) (s : Array3)
    (a : Array3) (c : ℕ × ℕ) (i j k : ℕ) (h : ¬(i = c.1 ∧ j = c.2)) :
    pjBody uold viscx viscy dt s a c i j k = a i j k := by
  simp only [pjBody, upd3]
  rw [if_neg (by tauto), if_neg (by tauto), if_neg (by tauto)]

theorem pjBody_writes (uold : Array3) (viscx viscy dt : Array2) (s : Array3)
    (a : Array3) (i j k : ℕ) (hk : k < 3) :
    pjBody uold viscx viscy dt s a (i, j) i j k = pjVal uold viscx viscy dt s i j k := by
  interval_cases k <;> simp [pjBody, upd3]

/-- Full characterization of the point-Jacobi pass: interior cells receive
the old-field update value, all other cells of `u` are untouched. -/
theorem point_Jacobi_eval (u uold : Array3) (viscx viscy dt : Array2) (s : Array3)
    (i j k : ℕ) (hk : k < 3) :
    point_Jacobi u uold viscx viscy dt s i j k =
      if 1 ≤ i ∧ i ≤ imax-2 ∧ 1 ≤ j ∧ j ≤ jmax-2
      then pjVal uold viscx viscy dt s i j k
      else u i j k := by
  by_cases h : 1 ≤ i ∧ i ≤ imax-2 ∧ 1 ≤ j ∧ j ≤ jmax-2
  · rw [if_pos h]
    exact foldl_obs_once (pjBody uold viscx viscy dt s) (fun a : Array3 => a i j k)
      _ (i, j) _
      (mem_ijList.mpr ⟨⟨h.1, by omega⟩, ⟨h.2.2.1, by omega⟩⟩)
      (ijList_nodup _ _ _ _)
      (fun a y _ hyx => pjBody_untouched uold viscx viscy dt s a y i j k
        (by rintro ⟨rfl, rfl⟩; exact hyx rfl))
      (fun a => pjBody_writes uold viscx viscy dt s a i j k hk) u
  · rw [if_neg h]
    exact foldl_obs_pres (pjBody uold viscx viscy dt s) (fun a : Array3 => a i j k)
      _ u
      (fun a c hc => pjBody_untouched uold viscx viscy dt s a c i j k (by
        obtain ⟨⟨h1, h2⟩, h3, h4⟩ := mem_ijList.mp hc
        rintro ⟨rfl, rfl⟩
        exact h ⟨h1, by omega, h3, by omega⟩))

/-- C6: in a point-Jacobi pass, the per-cell update writes only interior
cells (`1 ≤ i ≤ imax-2`, `1 ≤ j ≤ jmax-2`) of the current field `u`,
reads all spatial derivatives and cell values exclusively from the old
field (`pjVal` mentions `uold` only, never `u`), and leaves every boundary
cell of `u` unchanged (the `else` branch) until the external
boundary-condition call made afterwards by `PJ_iteration`. -/
theorem claim_C6_pj_frame (u uold : Array3) (viscx viscy dt : Array2) (s : Array3)
    (i j k : ℕ) (hk : k < 3) :
    point_Jacobi u uold viscx viscy dt s i j k =
      if 1 ≤ i ∧ i ≤ imax-2 ∧ 1 ≤ j ∧ j ≤ jmax-2
      then pjVal uold viscx viscy dt s i j k
      else u i j k :=
  point_Jacobi_eval u uold viscx viscy dt s i j k hk

/-- C6 witness: at a boundary cell the field is untouched; at an interior
cell the written value is the old-field update formula. -/
theorem claim_C6_witness :
    point_Jacobi uSamp zf3 zs2 zs2 zs2 zf3 0 7 1 = uSamp 0 7 1 ∧
    point_Jacobi uSamp zf3 zs2 zs2 zs2 zf3 3 3 1 = pjVal zf3 zs2 zs2 zs2 zf3 3 3 1 :=
  ⟨(claim_C6_pj_frame uSamp zf3 zs2 zs2 zs2 zf3 0 7 1 (by decide)).trans
      (if_neg (by decide)),
   (claim_C6_pj_frame uSamp zf3 zs2 zs2 zs2 zf3 3 3 1 (by decide)).trans
      (if_pos (by decide))⟩

/-! ## Lemmas about `Compute_Artificial_Viscosity` -/

theorem c_intHalf_eq : c_intHalf = 0 := by norm_num [c_intHalf]

theorem cavInterior_viscx_at (rsqrt : ℚ → ℚ) (u : Array3) (st : CavSt) (c : ℕ × ℕ)
    (i j : ℕ) :
    (cavInterior rsqrt u st c).viscx i j = if i = c.1 ∧ j = c.2 then 0 else st.viscx i j := by
  simp [cavInterior, upd2, c_intHalf_eq]

theorem cavInterior_viscy_at (rsqrt : ℚ → ℚ) (u : Array3) (st : CavSt) (c : ℕ × ℕ)
    (i j : ℕ) :
    (cavInterior rsqrt u st c).viscy i j = if i = c.1 ∧ j = c.2 then 0 else st.viscy i j := by
  simp [cavInterior, upd2, c_intHalf_eq]

theorem cavInterior_lambda_zero (rsqrt : ℚ → ℚ) (u : Array3) (st : CavSt) (c : ℕ × ℕ) :
    (cavInterior rsqrt u st c).locals.lambda_x = 0 ∧
    (cavInterior rsqrt u st c).locals.lambda_y = 0 := by
  constructor <;> simp [cavInterior, c_intHalf_eq]

theorem cavWrite_viscx_at (st : CavSt) (i j : ℕ) (d4x d4y : ℚ) (a b : ℕ) :
    (cavWrite st i j d4x d4y).viscx a b =
      if a = i ∧ b = j
      then d4x * (-|st.locals.lambda_x| * Cx * (dx*dx*dx)) / st.locals.beta2
      else st.viscx a b := rfl

theorem cavWrite_viscy_at (st : CavSt) (i j : ℕ) (d4x d4y : ℚ) (a b : ℕ) :
    (cavWrite st i j d4x d4y).viscy a b =
      if a = i ∧ b = j
      then d4y * (-|st.locals.lambda_y| * Cy * (dy*dy*dy)) / st.locals.beta2
      else st.viscy a b := rfl

theorem cavWrite_lambda (st : CavSt) (i j : ℕ) (d4x d4y : ℚ) :
    (cavWrite st i j d4x d4y).locals.lambda_x = st.locals.lambda_x ∧
    (cavWrite st i j d4x d4y).locals.lambda_y = st.locals.lambda_y := ⟨rfl, rfl⟩

/-- After the interior loop (which runs 60 x 60 times), the stale
`lambda_x`, `lambda_y` both hold `0`, because the C integer expression
`(1/2)` is `0`. -/
theorem cav_interior_fold_lambda (rsqrt : ℚ → ℚ) (u : Array3) (s0 : CavSt) :
    ((ijList 2 (imax-5) 2 (jmax-5)).foldl (cavInterior rsqrt u) s0).locals.lambda_x = 0 ∧
    ((ijList 2 (imax-5) 2 (jmax-5)).foldl (cavInterior rsqrt u) s0).locals.lambda_y = 0 := by
  have him : imax = 65 := rfl
  have hjm : jmax = 65 := rfl
  have hne : ijList 2 (imax-5) 2 (jmax-5) ≠ [] :=
    List.ne_nil_of_mem
      ((@mem_ijList 2 (imax-5) 2 (jmax-5) (2, 2)).mpr
        ⟨⟨le_refl 2, by omega⟩, ⟨le_refl 2, by omega⟩⟩)
  exact ⟨foldl_obs_const (cavInterior rsqrt u) (fun st => st.locals.lambda_x) _ 0 hne
      (fun a c _ => (cavInterior_lambda_zero rsqrt u a c).1) s0,
    foldl_obs_const (cavInterior rsqrt u) (fun st => st.locals.lambda_y) _ 0 hne
      (fun a c _ => (cavInterior_lambda_zero rsqrt u a c).2) s0⟩

/-- The interior loop writes `0` into `viscx(i,j)` and `viscy(i,j)` at each
of its cells, whatever the field and whatever junk the locals hold. -/
theorem cav_interior_fold_viscx (rsqrt : ℚ → ℚ) (u : Array3) (s0 : CavSt) (i j : ℕ)
    (hij : (i, j) ∈ ijList 2 (imax-5) 2 (jmax-5)) :
    ((ijList 2 (imax-5) 2 (jmax-5)).foldl (cavInterior rsqrt u) s0).viscx i j = 0 ∧
    ((ijList 2 (imax-5) 2 (jmax-5)).foldl (cavInterior rsqrt u) s0).viscy i j = 0 := by
  constructor
  · exact foldl_obs_once (cavInterior rsqrt u) (fun st => st.viscx i j) _ (i, j) 0 hij
      (ijList_nodup _ _ _ _)
      (fun a y _ hyx => by
        show (cavInterior rsqrt u a y).viscx i j = a.viscx i j
        rw [cavInterior_viscx_at, if_neg (by rintro ⟨rfl, rfl⟩; exact hyx rfl)])
      (fun a => by
        show (cavInterior rsqrt u a (i, j)).viscx i j = 0
        rw [cavInterior_viscx_at, if_pos ⟨rfl, rfl⟩]) s0
  · exact foldl_obs_once (cavInterior rsqrt u) (fun st => st.viscy i j) _ (i, j) 0 hij
      (ijList_nodup _ _ _ _)
      (fun a y _ hyx => by
        show (cavInterior rsqrt u a y).viscy i j = a.viscy i j
        rw [cavInterior_viscy_at, if_neg (by rintro ⟨rfl, rfl⟩; exact hyx rfl)])
      (fun a => by
        show (cavInterior rsqrt u a (i, j)).viscy i j = 0
        rw [cavInterior_viscy_at, if_pos ⟨rfl, rfl⟩]) s0

theorem cavWrite_untouched (st : CavSt) (i j : ℕ) (d4x d4y : ℚ) (a b : ℕ)
    (h : ¬(a = i ∧ b = j)) :
    (cavWrite st i j d4x d4y).viscx a b = st.viscx a b ∧
    (cavWrite st i j d4x d4y).viscy a b = st.viscy a b := by
  rw [cavWrite_viscx_at, if_neg h, cavWrite_viscy_at, if_neg h]
  exact ⟨rfl, rfl⟩

theorem cavWrite_zero (st : CavSt) (i j : ℕ) (d4x d4y : ℚ) (h : cavAllZero st) :
    cavAllZero (cavWrite st i j d4x d4y) := by
  obtain ⟨h, hx, hy⟩ := h
  refine ⟨fun x y => ⟨?_, ?_⟩, hx, hy⟩
  · rw [cavWrite_viscx_at, hx]
    split
    · simp
    · exact (h x y).1
  · rw [cavWrite_viscy_at, hy]
    split
    · simp
    · exact (h x y).2

/-- Every dissipation value `Compute_Artificial_Viscosity` writes is `0`
(stale `lambda = 0` after the interior loop, and `(1/2) = 0` inside it),
so on all-zero input workspaces the output arrays are identically zero. -/
theorem cav_zero_workspace (rsqrt : ℚ → ℚ) (u : Array3) (init : CavLocals) (a b : ℕ) :
    (Compute_Artificial_Viscosity rsqrt u zs2 zs2 init).viscx a b = 0 ∧
    (Compute_Artificial_Viscosity rsqrt u zs2 zs2 init).viscy a b = 0 := by
  have hs1 : cavAllZero ((ijList 2 (imax-5) 2 (jmax-5)).foldl (cavInterior rsqrt u)
      ⟨init, zs2, zs2⟩) := by
    refine ⟨?_, cav_interior_fold_lambda rsqrt u _⟩
    refine foldl_obs_inv (cavInterior rsqrt u)
      (fun st => ∀ x y, st.viscx x y = 0 ∧ st.viscy x y = 0) _
      (fun s c _ hs x y => ?_) _ (fun x y => ⟨rfl, rfl⟩)
    rw [cavInterior_viscx_at, cavInterior_viscy_at]
    constructor
    · split
      · rfl
      · exact (hs x y).1
    · split
      · rfl
      · exact (hs x y).2
  have hs2 : cavAllZero (cavBL u ((ijList 2 (imax-5) 2 (jmax-5)).foldl
      (cavInterior rsqrt u) ⟨init, zs2, zs2⟩)) := cavWrite_zero _ _ _ _ _ hs1
  have hs3 : cavAllZero (cavTL u (cavBL u ((ijList 2 (imax-5) 2 (jmax-5)).foldl
      (cavInterior rsqrt u) ⟨init, zs2, zs2⟩))) := cavWrite_zero _ _ _ _ _ hs2
  have hs4 : cavAllZero (cavBR u (cavTL u (cavBL u ((ijList 2 (imax-5) 2 (jmax-5)).foldl
      (cavInterior rsqrt u) ⟨init, zs2, zs2⟩)))) := cavWrite_zero _ _ _ _ _ hs3
  have hs5 : cavAllZero (cavTR u (cavBR u (cavTL u (cavBL u
      ((ijList 2 (imax-5) 2 (jmax-5)).foldl (cavInterior rsqrt u)
        ⟨init, zs2, zs2⟩))))) := cavWrite_zero _ _ _ _ _ hs4
  have hs6 : cavAllZero ((rangeFrom 2 (jmax-3)).foldl (cavLR u)
      (cavTR u (cavBR u (cavTL u (cavBL u ((ijList 2 (imax-5) 2 (jmax-5)).foldl
        (cavInterior rsqrt u) ⟨init, zs2, zs2⟩)))))) :=
    foldl_obs_inv (cavLR u) cavAllZero _
      (fun s c _ hs => cavWrite_zero _ _ _ _ _ hs) _ hs5
  have hs7 : cavAllZero ((rangeFrom 2 (imax-3)).foldl (cavTB u)
      ((rangeFrom 2 (jmax-3)).foldl (cavLR u)
        (cavTR u (cavBR u (cavTL u (cavBL u ((ijList 2 (imax-5) 2 (jmax-5)).foldl
          (cavInterior rsqrt u) ⟨init, zs2, zs2⟩))))))) :=
    foldl_obs_inv (cavTB u) cavAllZero _
      (fun s c _ hs => cavWrite_zero _ _ _ _ _ hs) _ hs6
  exact hs7.1 a b

/-- For interior-block cells the corner and edge-strip cases never
overwrite, so the final dissipation is the interior-loop value `0`. -/
theorem cav_block_zero (rsqrt : ℚ → ℚ) (u : Array3) (vx vy : Array2) (init : CavLocals)
    (i j : ℕ) (hi : 2 ≤ i) (hi2 : i ≤ imax-4) (hj : 2 ≤ j) (hj2 : j ≤ jmax-4) :
    (Compute_Artificial_Viscosity rsqrt u vx vy init).viscx i j = 0 ∧
    (Compute_Artificial_Viscosity rsqrt u vx vy init).viscy i j = 0 := by
  have him : imax = 65 := rfl
  have hjm : jmax = 65 := rfl
  have hij : (i, j) ∈ ijList 2 (imax-5) 2 (jmax-5) :=
    mem_ijList.mpr ⟨⟨hi, by omega⟩, ⟨hj, by omega⟩⟩
  have hbl : ¬(i = 1 ∧ j = 1) := by omega
  have htl : ¬(i = 1 ∧ j = jmax-2) := by omega
  have hbr : ¬(i = imax-2 ∧ j = 1) := by omega
  have htr : ¬(i = imax-2 ∧ j = jmax-2) := by omega
  have hlr : ∀ c : ℕ, ¬(i = imax-2 ∧ j = c) := by omega
  have htb : ∀ c : ℕ, ¬(i = c ∧ j = jmax-2) := fun c hc => by omega
  obtain ⟨h1, h2⟩ := cav_interior_fold_viscx rsqrt u ⟨init, vx, vy⟩ i j hij
  constructor
  · show ((rangeFrom 2 (imax-3)).foldl (cavTB u)
      ((rangeFrom 2 (jmax-3)).foldl (cavLR u)
        (cavTR u (cavBR u (cavTL u (cavBL u
          ((ijList 2 (imax-5) 2 (jmax-5)).foldl (cavInterior rsqrt u)
            ⟨init, vx, vy⟩))))))).viscx i j = 0
    rw [foldl_obs_pres (cavTB u) (fun st : CavSt => st.viscx i j) _ _
        (fun a c _ => (cavWrite_untouched a c (jmax-2) _ _ i j (htb c)).1),
      foldl_obs_pres (cavLR u) (fun st : CavSt => st.viscx i j) _ _
        (fun a c _ => (cavWrite_untouched a (imax-2) c _ _ i j (hlr c)).1)]
    rw [show ∀ st : CavSt, (cavTR u st).viscx i j = st.viscx i j from
        fun st => (cavWrite_untouched st (imax-2) (jmax-2) _ _ i j htr).1,
      show ∀ st : CavSt, (cavBR u st).viscx i j = st.viscx i j from
        fun st => (cavWrite_untouched st (imax-2) 1 _ _ i j hbr).1,
      show ∀ st : CavSt, (cavTL u st).viscx i j = st.viscx i j from
        fun st => (cavWrite_untouched st 1 (jmax-2) _ _ i j htl).1,
      show ∀ st : CavSt, (cavBL u st).viscx i j = st.viscx i j from
        fun st => (cavWrite_untouched st 1 1 _ _ i j hbl).1]
    exact h1
  · show ((rangeFrom 2 (imax-3)).foldl (cavTB u)
      ((rangeFrom 2 (jmax-3)).foldl (cavLR u)
        (cavTR u (cavBR u (cavTL u (cavBL u
          ((ijList 2 (imax-5) 2 (jmax-5)).foldl (cavInterior rsqrt u)
            ⟨init, vx, vy⟩))))))).viscy i j = 0
    rw [foldl_obs_pres (cavTB u) (fun st : CavSt => st.viscy i j) _ _
        (fun a c _ => (cavWrite_untouched a c (jmax-2) _ _ i j (htb c)).2),
      foldl_obs_pres (cavLR u) (fun st : CavSt => st.viscy i j) _ _
        (fun a c _ => (cavWrite_untouched a (imax-2) c _ _ i j (hlr c)).2)]
    rw [show ∀ st : CavSt, (cavTR u st).viscy i j = st.viscy i j from
        fun st => (cavWrite_untouched st (imax-2) (jmax-2) _ _ i j htr).2,
      show ∀ st : CavSt, (cavBR u st).viscy i j = st.viscy i j from
        fun st => (cavWrite_untouched st (imax-2) 1 _ _ i j hbr).2,
      show ∀ st : CavSt, (cavTL u st).viscy i j = st.viscy i j from
        fun st => (cavWrite_untouched st 1 (jmax-2) _ _ i j htl).2,
      show ∀ st : CavSt, (cavBL u st).viscy i j = st.viscy i j from
        fun st => (cavWrite_untouched st 1 1 _ _ i j hbl).2]
    exact h2

/-! ## Claim theorems C1 and C2 -/

/-- C1: FALSE of the code — code bug.  On the interior block the code
stores `0` into `viscx(i,j)` and `viscy(i,j)` for every field and every
value of the uninitialized locals, because `lambda_x`, `lambda_y` are
computed with the C integer expression `(1/2) = 0` (and `beta2` reads the
never-assigned `uvel2`); the spec's formula (`specViscX`, built per the
claim from the cell's own velocity) is strictly negative at the concrete
spike field, so the code does not compute the claimed value. -/
theorem claim_C1_interior_dissipation (rsqrt : ℚ → ℚ) (init : CavLocals)
    (u : Array3) (viscx viscy : Array2) (h : 0 < rsqrt (2/5)) :
    (∀ i j, 2 ≤ i → i ≤ imax-4 → 2 ≤ j → j ≤ jmax-4 →
      (Compute_Artificial_Viscosity rsqrt u viscx viscy init).viscx i j = 0 ∧
      (Compute_Artificial_Viscosity rsqrt u viscx viscy init).viscy i j = 0) ∧
    specViscX rsqrt uSpike 10 10 < 0 := by
  constructor
  · exact fun i j hi hi2 hj hj2 => cav_block_zero rsqrt u viscx viscy init i j hi hi2 hj hj2
  · have e0 : specViscX rsqrt uSpike 10 10 = -(384 : ℚ) * rsqrt (2/5) := by
      simp only [specViscX]
      norm_num [uSpike, rkappa, vel2ref, uinf, max_def]
      rw [abs_of_pos (by linarith)]
      norm_num [Cx, dx, xmax, xmin, imax]
      ring
    rw [e0]
    nlinarith [h]

/-- C1 witness: with a concrete square-root stub the hypothesis holds, the
code's interior dissipation at cell `(10,10)` is `0`, and the claimed
formula value there is negative. -/
theorem claim_C1_witness :
    (Compute_Artificial_Viscosity (fun _ => 1) uSpike zs2 zs2 ⟨0,0,0,0,0,0⟩).viscx 10 10 = 0 ∧
    specViscX (fun _ => 1) uSpike 10 10 < 0 :=
  ⟨((claim_C1_interior_dissipation (fun _ => 1) ⟨0,0,0,0,0,0⟩ uSpike zs2 zs2 (by norm_num)).1
      10 10 (by decide) (by decide) (by decide) (by decide)).1,
   (claim_C1_interior_dissipation (fun _ => 1) ⟨0,0,0,0,0,0⟩ uSpike zs2 zs2 (by norm_num)).2⟩

/-- C2: FALSE for the edge strips — code bug.  At loop index
`j = jmax-2` the left/right-wall y stencils read column `jmax` (the pair
`(2, jmax)` is among the transcribed reads), i.e. an index outside the
logical domain `[0, imax) x [0, jmax)`; the four corner cases, by
contrast, read only in-domain indices. -/
theorem claim_C2_edge_strip_reads :
    ((2, jmax) ∈ cavEdgeReads) ∧ (∀ p ∈ cavCornerReads, p.1 < imax ∧ p.2 < jmax) := by
  constructor
  · apply List.mem_append_left
    rw [List.mem_flatMap]
    refine ⟨jmax-2, mem_rangeFrom.mpr ⟨by decide, by decide⟩, by decide⟩
  · decide

/-! ## Lemmas about `compute_time_step` and claim C4 -/

theorem dtLocal_zero_field (rsqrt : ℚ → ℚ) (h : 0 < rsqrt (2/5)) (i j : ℕ) :
    0 < dtLocal rsqrt zf3 i j := by
  have hz : ∀ a b c, zf3 a b c = 0 := fun a b c => rfl
  simp only [dtLocal, hz]
  norm_num [rkappa, vel2ref, uinf, max_def]
  have hr : (0:ℚ) < 1/2 * rsqrt (2/5) := by linarith
  rw [abs_of_pos hr]
  have h1 : (0:ℚ) < dx * dy / (4 * (rmu / rho)) := by
    norm_num [dx, dy, rmu, rho, rlength, xmax, xmin, ymax, ymin, Re, uinf, imax, jmax]
  have h2 : (0:ℚ) < min dx dy / (1/2 * rsqrt (2/5)) := by
    apply div_pos _ hr
    norm_num [dx, dy, xmax, xmin, ymax, ymin, imax, jmax, min_def]
  have := lt_min h1 h2
  norm_num [cfl]
  constructor <;> linarith

set_option maxRecDepth 8000 in
/-- C4: FALSE as stated — code bug.  `dtmin` is passed into
`compute_time_step` by reference and only ever folded with `min`, so the
function returns `min(dtmin_in, min over interior cells)`: a running
minimum over the whole run, not a per-iteration quantity.  Concretely,
with `dtmin_in = 0` carried in from earlier iterations and the zero
velocity field, the function returns `0` although every interior local
pseudo-time step is strictly positive; and for every input the returned
`dtmin` is at most the carried-in value. -/
theorem claim_C4_dtmin_running_minimum (rsqrt : ℚ → ℚ) (h : 0 < rsqrt (2/5)) :
    (∀ i j, 0 < dtLocal rsqrt zf3 i j) ∧
    (compute_time_step rsqrt zf3 zs2 0).2 = 0 ∧
    (∀ (u : Array3) (dt0 : Array2) (dtmin0 : ℚ),
      (compute_time_step rsqrt u dt0 dtmin0).2 ≤ dtmin0) := by
  refine ⟨dtLocal_zero_field rsqrt h, ?_, ?_⟩
  · show ((ijList 1 (imax-2) 1 (jmax-2)).foldl
      (fun (p : Array2 × ℚ) c =>
        (upd2 p.1 c.1 c.2 (dtLocal rsqrt zf3 c.1 c.2),
          min p.2 (dtLocal rsqrt zf3 c.1 c.2))) (zs2, 0)).2 = 0
    exact foldl_obs_inv _ (fun p : Array2 × ℚ => p.2 = 0) _
      (fun a c _ ha => by
        show min a.2 (dtLocal rsqrt zf3 c.1 c.2) = 0
        rw [ha, min_eq_left (le_of_lt (dtLocal_zero_field rsqrt h c.1 c.2))]) _ rfl
  · intro u dt0 dtmin0
    show ((ijList 1 (imax-2) 1 (jmax-2)).foldl
      (fun (p : Array2 × ℚ) c =>
        (upd2 p.1 c.1 c.2 (dtLocal rsqrt u c.1 c.2),
          min p.2 (dtLocal rsqrt u c.1 c.2))) (dt0, dtmin0)).2 ≤ dtmin0
    exact foldl_obs_inv _ (fun p : Array2 × ℚ => p.2 ≤ dtmin0) _
      (fun a c _ ha => le_trans (min_le_left _ _) ha) _ (le_refl _)

/-- C4 witness: concrete square-root stub exhibiting the running-minimum
behaviour. -/
theorem claim_C4_witness :
    (0:ℚ) < dtLocal (fun _ => 1) zf3 3 3 ∧
    (compute_time_step (fun _ => 1) zf3 zs2 0).2 = 0 :=
  ⟨(claim_C4_dtmin_running_minimum (fun _ => 1) (by norm_num)).1 3 3,
   (claim_C4_dtmin_running_minimum (fun _ => 1) (by norm_num)).2.1⟩

/-! ## Claim C9: a steady-state field under one point-Jacobi iteration -/

theorem pjVal_steady (w : Array3) (vx vy dt : Array2) (src : Array3) (i j k : ℕ)
    (hk : k < 3)
    (H : ∀ k2, k2 < 3 → w (i+1) j k2 = w (i-1) j k2 ∧ w i (j+1) k2 = w i (j-1) k2 ∧
      w (i+1) j k2 - 2 * w i j k2 + w (i-1) j k2 = 0 ∧
      w i (j+1) k2 - 2 * w i j k2 + w i (j-1) k2 = 0)
    (hvx : vx i j = 0) (hvy : vy i j = 0)
    (hs : ∀ k2, k2 < 3 → src i j k2 = 0) :
    pjVal w vx vy dt src i j k = w i j k := by
  obtain ⟨e1p, e2p, -, -⟩ := H 0 (by norm_num)
  obtain ⟨e1u, e2u, e3u, e4u⟩ := H 1 (by norm_num)
  obtain ⟨e1v, e2v, e3v, e4v⟩ := H 2 (by norm_num)
  have hp1 : w (i+1) j 0 - w (i-1) j 0 = 0 := by rw [e1p]; ring
  have hp2 : w i (j+1) 0 - w i (j-1) 0 = 0 := by rw [e2p]; ring
  have hq1 : w (i+1) j 1 - w (i-1) j 1 = 0 := by rw [e1u]; ring
  have hq2 : w i (j+1) 1 - w i (j-1) 1 = 0 := by rw [e2u]; ring
  have hr1 : w (i+1) j 2 - w (i-1) j 2 = 0 := by rw [e1v]; ring
  have hr2 : w i (j+1) 2 - w i (j-1) 2 = 0 := by rw [e2v]; ring
  interval_cases k <;>
    simp [pjVal, hp1, hp2, hq1, hq2, hr1, hr2, e3u, e4u, e3v, e4v, hvx, hvy,
      hs 0 (by norm_num), hs 1 (by norm_num), hs 2 (by norm_num)]

set_option maxRecDepth 8000 in
/-- C9 counterexample: the all-zero field is at steady state in the
claim's sense (every central first and second difference of `p`, `u`, `v`
vanishes at every interior cell, the source field is zero), yet one full
point-Jacobi iteration (swap, dissipation from old, interior update,
boundary conditions) changes it: the boundary-condition call writes the
lid velocity `uinf = 1` into the top-wall cell `(5, jmax-1)`. -/
theorem claim_C9_counterexample :
    (∀ i j k, 1 ≤ i → i ≤ imax-2 → 1 ≤ j → j ≤ jmax-2 → k < 3 →
      zf3 (i+1) j k - zf3 (i-1) j k = 0 ∧ zf3 i (j+1) k - zf3 i (j-1) k = 0 ∧
      zf3 (i+1) j k - 2 * zf3 i j k + zf3 (i-1) j k = 0 ∧
      zf3 i (j+1) k - 2 * zf3 i j k + zf3 i (j-1) k = 0) ∧
    (∀ i j k, zf3 i j k = 0) ∧
    (PJ_iteration zq ⟨0,0,0,0,0,0⟩ bndry zf3 zf3 zf3 zs2 zs2 zs2).1 5 (jmax-1) 1 ≠
      zf3 5 (jmax-1) 1 := by
  refine ⟨fun i j k _ _ _ _ _ => by norm_num [zf3], fun i j k => rfl, ?_⟩
  show bndry (point_Jacobi zf3 zf3
      (Compute_Artificial_Viscosity zq zf3 zs2 zs2 ⟨0,0,0,0,0,0⟩).viscx
      (Compute_Artificial_Viscosity zq zf3 zs2 zs2 ⟨0,0,0,0,0,0⟩).viscy
      zs2 zf3) 5 (jmax-1) 1 ≠ zf3 5 (jmax-1) 1
  rw [(bndry_top_eval _ 5 (by decide)).2.1]
  norm_num [uinf, zf3]

set_option maxRecDepth 8000 in
/-- C9 (amended): as stated the claim is false (no discrete steady-state
field can also carry the lid boundary values, and the wall
boundary-condition call rewrites the border of any such field).  The
amended claim: for every field at steady state (all central first and
second differences of `p`, `u`, `v` zero at interior cells, source zero at
interior cells) and with the dissipation workspace arrays zero, one
point-Jacobi iteration leaves every INTERIOR cell unchanged; the border
cells are rewritten by the boundary-condition provider. -/
theorem claim_C9_steady_interior (rsqrt : ℚ → ℚ) (init : CavLocals)
    (w uold0 : Array3) (src : Array3) (dt : Array2)
    (H1 : ∀ i j k, 1 ≤ i → i ≤ imax-2 → 1 ≤ j → j ≤ jmax-2 → k < 3 →
      w (i+1) j k = w (i-1) j k ∧ w i (j+1) k = w i (j-1) k ∧
      w (i+1) j k - 2 * w i j k + w (i-1) j k = 0 ∧
      w i (j+1) k - 2 * w i j k + w i (j-1) k = 0)
    (H2 : ∀ i j k, 1 ≤ i → i ≤ imax-2 → 1 ≤ j → j ≤ jmax-2 → k < 3 →
      src i j k = 0) :
    ∀ i j k, 1 ≤ i → i ≤ imax-2 → 1 ≤ j → j ≤ jmax-2 → k < 3 →
      (PJ_iteration rsqrt init bndry w uold0 src zs2 zs2 dt).1 i j k = w i j k := by
  intro i j k hi hi2 hj hj2 hk
  have him : imax = 65 := rfl
  have hjm : jmax = 65 := rfl
  show bndry (point_Jacobi uold0 w
      (Compute_Artificial_Viscosity rsqrt w zs2 zs2 init).viscx
      (Compute_Artificial_Viscosity rsqrt w zs2 zs2 init).viscy
      dt src) i j k = w i j k
  rw [bndry_interior _ i j k (by omega) (by omega) (by omega) (by omega),
    point_Jacobi_eval uold0 w _ _ dt src i j k hk, if_pos ⟨hi, hi2, hj, hj2⟩]
  exact pjVal_steady w _ _ dt src i j k hk
    (fun k2 hk2 => H1 i j k2 hi hi2 hj hj2 hk2)
    (cav_zero_workspace rsqrt w init i j).1
    (cav_zero_workspace rsqrt w init i j).2
    (fun k2 hk2 => H2 i j k2 hi hi2 hj hj2 hk2)

set_option maxRecDepth 8000 in
/-- C9 witness for the amended theorem: the all-zero field (steady, zero
source, zero workspace) keeps its interior cell `(5, 5)` value. -/
theorem claim_C9_witness :
    (PJ_iteration zq ⟨0,0,0,0,0,0⟩ bndry zf3 zf3 zf3 zs2 zs2 zs2).1 5 5 1 = 0 :=
  (claim_C9_steady_interior zq ⟨0,0,0,0,0,0⟩ zf3 zf3 zf3 zs2
    (fun i j k _ _ _ _ _ => by norm_num [zf3])
    (fun i j k _ _ _ _ _ => rfl)
    5 5 1 (by decide) (by decide) (by decide) (by decide) (by decide)).trans rfl

/-! ## List splitting at a loop index, and the in-place sweep lemmas -/

theorem rangeFrom_eq_range' (lo n : ℕ) : rangeFrom lo n = List.range' lo n := by
  rw [List.range'_eq_map_range]
  rfl

theorem rangeFrom_split (lo n x m1 m2 : ℕ) (e1 : m1 = x - lo) (e2 : m2 = lo + n - x - 1)
    (h1 : lo ≤ x) (h2 : x < lo + n) :
    rangeFrom lo n = rangeFrom lo m1 ++ x :: rangeFrom (x+1) m2 := by
  rw [rangeFrom_eq_range', rangeFrom_eq_range', rangeFrom_eq_range']
  have hx : x :: List.range' (x+1) m2 = List.range' x (m2+1) := by
    rw [List.range'_succ]
  rw [hx]
  have h := List.range'_append lo m1 (m2+1) 1
  rw [show lo + 1*m1 = x by omega] at h
  rw [h, show m2+1+m1 = n by omega]

theorem ijList_split (i0 ni j0 nj i j mi1 mi2 mj1 mj2 : ℕ)
    (ei1 : mi1 = i - i0) (ei2 : mi2 = i0 + ni - i - 1)
    (ej1 : mj1 = j - j0) (ej2 : mj2 = j0 + nj - j - 1)
    (hi : i0 ≤ i) (hi2 : i < i0 + ni) (hj : j0 ≤ j) (hj2 : j < j0 + nj) :
    ijList i0 ni j0 nj =
      (ijList i0 mi1 j0 nj ++ (rangeFrom j0 mj1).map (fun j2 => (i, j2)))
      ++ (i, j) ::
      ((rangeFrom (j+1) mj2).map (fun j2 => (i, j2)) ++ ijList (i+1) mi2 j0 nj) := by
  unfold ijList
  rw [rangeFrom_split i0 ni i mi1 mi2 ei1 ei2 hi hi2, List.flatMap_append, List.flatMap_cons,
    rangeFrom_split j0 nj j mj1 mj2 ej1 ej2 hj hj2]
  simp [List.map_append, List.append_assoc]

theorem ijListDesc_split (i0 ni j0 nj i j mi1 mi2 mj1 mj2 : ℕ)
    (ei1 : mi1 = i - i0) (ei2 : mi2 = i0 + ni - i - 1)
    (ej1 : mj1 = j - j0) (ej2 : mj2 = j0 + nj - j - 1)
    (hi : i0 ≤ i) (hi2 : i < i0 + ni) (hj : j0 ≤ j) (hj2 : j < j0 + nj) :
    ijListDesc i0 ni j0 nj =
      (((rangeFrom (i+1) mi2).reverse).flatMap
          (fun i2 => ((rangeFrom j0 nj).reverse).map (fun j2 => (i2, j2)))
        ++ ((rangeFrom (j+1) mj2).reverse).map (fun j2 => (i, j2)))
      ++ (i, j) ::
      (((rangeFrom j0 mj1).reverse).map (fun j2 => (i, j2))
        ++ ((rangeFrom i0 mi1).reverse).flatMap
          (fun i2 => ((rangeFrom j0 nj).reverse).map (fun j2 => (i2, j2)))) := by
  have hrow : ((rangeFrom j0 nj).reverse).map (fun j2 => ((i : ℕ), j2)) =
      ((rangeFrom (j+1) mj2).reverse).map (fun j2 => (i, j2))
      ++ (i, j) :: ((rangeFrom j0 mj1).reverse).map (fun j2 => (i, j2)) := by
    rw [rangeFrom_split j0 nj j mj1 mj2 ej1 ej2 hj hj2, List.reverse_append,
      List.reverse_cons]
    simp [List.map_append, List.append_assoc]
  unfold ijListDesc
  rw [rangeFrom_split i0 ni i mi1 mi2 ei1 ei2 hi hi2, List.reverse_append,
    List.reverse_cons, List.flatMap_append, List.flatMap_append, List.flatMap_cons]
  simp only [List.flatMap_nil, List.append_nil, List.flatMap_cons]
  rw [hrow]
  simp [List.append_assoc]

/-- Reading one observable after a loop whose index list splits as
`l1 ++ x :: l2`, where the iterations of `l2` leave the observable alone:
the result is the body applied at `x` to the fold over `l1`. -/
theorem foldl_split_eval {σ α β : Type} (body : σ → α → σ) (obs : σ → β)
    (l1 l2 : List α) (x : α) (s : σ)
    (h2 : ∀ a y, y ∈ l2 → obs (body a y) = obs a) :
    obs ((l1 ++ x :: l2).foldl body s) = obs (body (l1.foldl body s) x) := by
  rw [List.foldl_append, List.foldl_cons]
  exact foldl_obs_pres body obs l2 _ h2

theorem sgsBody_untouched (vx vy dt : Array2) (s : Array3) (a : Array3) (c : ℕ × ℕ)
    (i j k : ℕ) (h : ¬(i = c.1 ∧ j = c.2)) :
    sgsBody vx vy dt s a c i j k = a i j k := by
  simp only [sgsBody, upd3]
  rw [if_neg (by tauto), if_neg (by tauto), if_neg (by tauto)]

/-- C7: one symmetric Gauss-Seidel iteration (1) copies the current field
into `old` as a snapshot (not a pointer swap) and never reads `old` in the
sweeps (the result is independent of the incoming old field — the
definition of `GS_iteration` applies the two sweeps, two
boundary-condition calls and two dissipation recomputations in the source
order); (2) the forward sweep updates interior cells in place in
ascending `i` then ascending `j`: the value at `(i, j)` is the sweep body
evaluated on the partially relaxed field `sgsPrefixF`, in which all cells
preceding `(i, j)` in sweep order are already updated; (3) symmetrically
for the backward sweep in descending order (`sgsPrefixB`). -/
theorem claim_C7_gs_iteration_structure (rsqrt : ℚ → ℚ) (init1 init2 : CavLocals)
    (bc : Array3 → Array3) (u uold : Array3) (src : Array3) (viscx viscy dt : Array2) :
    (GS_iteration rsqrt init1 init2 bc u uold src viscx viscy dt).2.1 = u ∧
    (∀ uold2, GS_iteration rsqrt init1 init2 bc u uold src viscx viscy dt =
      GS_iteration rsqrt init1 init2 bc u uold2 src viscx viscy dt) ∧
    (∀ (w : Array3) (vx vy : Array2) (i j : ℕ),
      1 ≤ i → i ≤ imax-2 → 1 ≤ j → j ≤ jmax-2 → ∀ k,
      SGS_forward_sweep w vx vy dt src i j k =
        sgsBody vx vy dt src (sgsPrefixF vx vy dt src w i j) (i, j) i j k) ∧
    (∀ (w : Array3) (vx vy : Array2) (i j : ℕ),
      1 ≤ i → i ≤ imax-2 → 1 ≤ j → j ≤ jmax-2 → ∀ k,
      SGS_backward_sweep w vx vy dt src i j k =
        sgsBody vx vy dt src (sgsPrefixB vx vy dt src w i j) (i, j) i j k) := by
  have him : imax = 65 := rfl
  have hjm : jmax = 65 := rfl
  refine ⟨rfl, fun uold2 => rfl, ?_, ?_⟩
  · intro w vx vy i j hi hi2 hj hj2 k
    unfold SGS_forward_sweep sgsPrefixF
    rw [ijList_split 1 (imax-2) 1 (jmax-2) i j (i-1) (imax-2-i) (j-1) (jmax-2-j)
      (by omega) (by omega) (by omega) (by omega) (by omega) (by omega) (by omega) (by omega)]
    refine foldl_split_eval (sgsBody vx vy dt src) (fun a : Array3 => a i j k)
      _ _ (i, j) w (fun a y hy => sgsBody_untouched vx vy dt src a y i j k ?_)
    rcases List.mem_append.mp hy with h | h
    · obtain ⟨j2, hj2m, rfl⟩ := List.mem_map.mp h
      have hb := mem_rangeFrom.mp hj2m
      rintro ⟨-, rfl⟩
      omega
    · have hb := mem_ijList.mp h
      rintro ⟨rfl, -⟩
      omega
  · intro w vx vy i j hi hi2 hj hj2 k
    unfold SGS_backward_sweep sgsPrefixB
    rw [ijListDesc_split 1 (imax-2) 1 (jmax-2) i j (i-1) (imax-2-i) (j-1) (jmax-2-j)
      (by omega) (by omega) (by omega) (by omega) (by omega) (by omega) (by omega) (by omega)]
    refine foldl_split_eval (sgsBody vx vy dt src) (fun a : Array3 => a i j k)
      _ _ (i, j) w (fun a y hy => sgsBody_untouched vx vy dt src a y i j k ?_)
    rcases List.mem_append.mp hy with h | h
    · obtain ⟨j2, hj2m, rfl⟩ := List.mem_map.mp h
      have hb := mem_rangeFrom.mp (List.mem_reverse.mp hj2m)
      rintro ⟨-, rfl⟩
      omega
    · obtain ⟨i2, hi2m, hmem⟩ := List.mem_flatMap.mp h
      obtain ⟨j2, hj2m, rfl⟩ := List.mem_map.mp hmem
      have hb := mem_rangeFrom.mp (List.mem_reverse.mp hi2m)
      rintro ⟨rfl, -⟩
      omega

/-- C7 witness: concrete instances; at the first cell of the forward sweep
the prefix field is just the input field, and the backward-sweep
characterization instantiated at an interior cell. -/
theorem claim_C7_witness :
    (GS_iteration zq ⟨0,0,0,0,0,0⟩ ⟨0,0,0,0,0,0⟩ bndry uSamp zf3 zf3 zs2 zs2 zs2).2.1
      = uSamp ∧
    SGS_forward_sweep uSamp zs2 zs2 zs2 zf3 4 7 1 =
      sgsBody zs2 zs2 zs2 zf3 (sgsPrefixF zs2 zs2 zs2 zf3 uSamp 4 7) (4, 7) 4 7 1 :=
  ⟨(claim_C7_gs_iteration_structure zq ⟨0,0,0,0,0,0⟩ ⟨0,0,0,0,0,0⟩ bndry uSamp zf3
      zf3 zs2 zs2 zs2).1,
   (claim_C7_gs_iteration_structure zq ⟨0,0,0,0,0,0⟩ ⟨0,0,0,0,0,0⟩ bndry uSamp zf3
      zf3 zs2 zs2 zs2).2.2.1 uSamp zs2 zs2 4 7 (by decide) (by decide) (by decide)
      (by decide) 1⟩

/-! ## Claim C3: the residual normalization across iterations -/

theorem driverStep_resinit (rsqrt rsin rcos : ℚ → ℚ) (rpiv : ℚ) (init : CavLocals)
    (src : Array3) (s : DState) :
    (driverStep rsqrt rsin rcos rpiv init src s).resinit = s.resinit := by
  simp only [driverStep]

theorem driverStep_res (rsqrt rsin rcos : ℚ → ℚ) (rpiv : ℚ) (init : CavLocals)
    (src : Array3) (s : DState) :
    (driverStep rsqrt rsin rcos rpiv init src s).res = fun k =>
      rsqrt (resSumOf (driverStep rsqrt rsin rcos rpiv init src s).u
          (driverStep rsqrt rsin rcos rpiv init src s).uold
          (driverStep rsqrt rsin rcos rpiv init src s).dt k /
        (((imax : ℚ) - 2) * ((jmax : ℚ) - 2))) / s.resinit k := by
  simp only [driverStep, check_iterative_convergence]

theorem driverIter_succ (rsqrt rsin rcos : ℚ → ℚ) (rpiv : ℚ) (inits : ℕ → CavLocals)
    (src : Array3) (n : ℕ) (s : DState) :
    driverIter rsqrt rsin rcos rpiv inits src (n+1) s =
      driverStep rsqrt rsin rcos rpiv (inits n) src
        (driverIter rsqrt rsin rcos rpiv inits src n s) := by
  simp only [driverIter]

/-- C3: FALSE — code bug.  `resinit` is set to all-ones by `initial` and
never written again by any function of the run, so after any number of
driver iterations the convergence monitor still divides each equation's
raw RMS residual by the constant `1` — the residual value of the first
iteration is never captured and never used as the divisor.  (The part of
the claim that does hold: the convergence scalar is the maximum of the
three normalized residuals, third conjunct.) -/
theorem claim_C3_resinit_never_captured (rsqrt rsin rcos : ℚ → ℚ) (rpiv : ℚ)
    (inits : ℕ → CavLocals) (src : Array3) (s0 : DState)
    (h0 : s0.resinit = initial_resinit) (n : ℕ) :
    (driverIter rsqrt rsin rcos rpiv inits src n s0).resinit = initial_resinit ∧
    ((driverIter rsqrt rsin rcos rpiv inits src (n+1) s0).res = fun k =>
      rsqrt (resSumOf (driverIter rsqrt rsin rcos rpiv inits src (n+1) s0).u
          (driverIter rsqrt rsin rcos rpiv inits src (n+1) s0).uold
          (driverIter rsqrt rsin rcos rpiv inits src (n+1) s0).dt k /
        (((imax : ℚ) - 2) * ((jmax : ℚ) - 2))) / 1) ∧
    (∀ (u2 uold2 : Array3) (dt2 : Array2) (ri : ℕ → ℚ),
      (check_iterative_convergence rsqrt u2 uold2 dt2 ri).2 =
        max (max ((check_iterative_convergence rsqrt u2 uold2 dt2 ri).1 0)
          ((check_iterative_convergence rsqrt u2 uold2 dt2 ri).1 1))
          ((check_iterative_convergence rsqrt u2 uold2 dt2 ri).1 2)) := by
  have hinv : ∀ m, (driverIter rsqrt rsin rcos rpiv inits src m s0).resinit =
      initial_resinit := by
    intro m
    induction m with
    | zero => exact h0
    | succ m ih =>
        rw [driverIter_succ, driverStep_resinit]
        exact ih
  refine ⟨hinv n, ?_, fun u2 uold2 dt2 ri => rfl⟩
  rw [driverIter_succ]
  simp only [driverStep_res]
  simp only [hinv n]
  simp [initial_resinit]

/-- C3 witness: a concrete fresh-run state keeps the all-ones `resinit`. -/
theorem claim_C3_witness :
    (driverIter zq zq zq 0 (fun _ => ⟨0,0,0,0,0,0⟩) zf3 0 dState0).resinit =
      initial_resinit :=
  (claim_C3_resinit_never_captured zq zq zq 0 (fun _ => ⟨0,0,0,0,0,0⟩) zf3 dState0
    rfl 0).1
